import Mathlib

/-!
Verification of the cnts_messaging_svc messaging service.

This file gives a shallow embedding of the service's core components and
proves the specification's claims about them:

* `connection_manager.py` (`WebSocketConnectionManager`): Python dicts are
  modelled as association lists in insertion order (`dlookup`, `dset`,
  `ddel`), Python sets as duplicate-free lists in insertion order
  (`sadd`, `sdiscard`).  The manager state is the `Manager` structure with
  its three dictionaries.
* `models/message.py` + `services/message_persistence.py`: the messages
  table is a `List Message`; the `before_insert` listener's
  `COALESCE(MAX(message_id), 0) + 1` query is `generate_message_id`; the
  commit / rollback behaviour of `persist_message` is a pure transformer
  of the table with an injected storage fault that can strike either the
  commit itself or the post-commit `db_session.refresh` call.
* `routers/websocket_router.py` receive loop: `handleFrame`.
* `app.py` stale-connection cleanup tick: `cleanupTick`.
* `services/websocket_publisher.py`: `publish_message` over an abstract
  per-channel send outcome.
-/

set_option autoImplicit false
set_option linter.unusedSectionVars false

/-! ## Python dict / set primitives -/

section DictSet

variable {K V A : Type} [DecidableEq K] [DecidableEq A]

/-- `d[k]` lookup in a Python dict modelled as an association list
(first entry with the key wins). -/
def dlookup : List (K × V) → K → Option V
  | [], _ => none
  | p :: rest, k => if p.1 = k then some p.2 else dlookup rest k

/-- `d[k] = v`: replace the entry in place if the key is present,
else append a new entry (Python dicts keep insertion order). -/
def dset : List (K × V) → K → V → List (K × V)
  | [], k, v => [(k, v)]
  | p :: rest, k, v => if p.1 = k then (k, v) :: rest else p :: dset rest k v

/-- `del d[k]`: remove the entry with the given key. -/
def ddel (d : List (K × V)) (k : K) : List (K × V) :=
  d.filter (fun p => decide (¬ p.1 = k))

/-- The keys of a dict. -/
def dkeys (d : List (K × V)) : List K := d.map Prod.fst

/-- `s.add(a)` on a Python set modelled as a duplicate-free list. -/
def sadd (s : List A) (a : A) : List A := if a ∈ s then s else s ++ [a]

/-- `s.discard(a)` on a Python set. -/
def sdiscard (s : List A) (a : A) : List A := s.filter (fun x => decide (¬ x = a))

/-- The dict has no duplicate keys (true of every Python dict). -/
def NodupKeys (d : List (K × V)) : Prop := (d.map Prod.fst).Nodup

end DictSet

/-! ## The connection registry (`WebSocketConnectionManager`) -/

/-- The client identifier of a websocket connection. -/
abbrev ClientId := String

/-- A `(topic_type, topic_id)` subscription key. -/
abbrev TopicKey := String × String

/-- The per-connection state stored in `active_connections`: the websocket
object (modelled as an opaque numeric handle) and `last_activity_at`
(modelled as a natural-number timestamp). -/
structure Conn where
  ws : Nat
  lastActivity : Nat
deriving DecidableEq, Repr

/-- The state of `WebSocketConnectionManager`: `active_connections`
(client_id -> (websocket, last_activity_at)), `subscriptions`
(topic key -> set of client ids) and `client_topics`
(client_id -> set of topic keys). -/
structure Manager where
  active_connections : List (ClientId × Conn)
  subscriptions : List (TopicKey × List ClientId)
  client_topics : List (ClientId × List TopicKey)
deriving DecidableEq, Repr

/-- The manager created by `__init__`: all three dicts empty. -/
def Manager.init : Manager := ⟨[], [], []⟩

/-- `update_activity`: refresh `last_activity_at` of a known client to the
current time; warn-and-return for an unknown client. -/
def Manager.update_activity (m : Manager) (c : ClientId) (now : Nat) : Manager :=
  match dlookup m.active_connections c with
  | none => m
  | some conn =>
      { m with active_connections := dset m.active_connections c ⟨conn.ws, now⟩ }

/-- `_remove_subscription`: drop the client from the topic's subscriber set
(deleting the set when it becomes empty) and drop the topic from the
client's topic set. -/
def Manager._remove_subscription (m : Manager) (c : ClientId) (k : TopicKey) : Manager :=
  let m1 :=
    match dlookup m.subscriptions k with
    | none => m
    | some subs =>
        let subs' := sdiscard subs c
        if subs' = [] then { m with subscriptions := ddel m.subscriptions k }
        else { m with subscriptions := dset m.subscriptions k subs' }
  match dlookup m1.client_topics c with
  | none => m1
  | some ts => { m1 with client_topics := dset m1.client_topics c (sdiscard ts k) }

/-- `disconnect`: no-op for an unknown client; otherwise remove the
connection, remove every subscription it held (iterating over a copy of
its topic set), then delete its `client_topics` entry. -/
def Manager.disconnect (m : Manager) (c : ClientId) : Manager :=
  match dlookup m.active_connections c with
  | none => m
  | some _ =>
      let m1 := { m with active_connections := ddel m.active_connections c }
      match dlookup m1.client_topics c with
      | none => m1
      | some ts =>
          let m2 := ts.foldl (fun acc k => acc._remove_subscription c k) m1
          { m2 with client_topics := ddel m2.client_topics c }

/-- `connect`: replace an existing connection with the same id
(tearing it down via `disconnect` first), then register the websocket with
a fresh `last_activity_at` and an empty topic set. -/
def Manager.connect (m : Manager) (w : Nat) (c : ClientId) (now : Nat) : Manager :=
  let m0 :=
    match dlookup m.active_connections c with
    | some _ => m.disconnect c
    | none => m
  { m0 with
    active_connections := dset m0.active_connections c ⟨w, now⟩,
    client_topics := dset m0.client_topics c [] }

/-- `subscribe`: raise `ValueError` for a client that is not connected;
otherwise add the client to the topic's subscriber set (creating the set
when missing) and the topic to the client's topic set (creating it when
missing). -/
def Manager.subscribe (m : Manager) (c : ClientId) (tt ti : String) :
    Except String Manager :=
  match dlookup m.active_connections c with
  | none => .error ("Client " ++ c ++ " is not connected")
  | some _ =>
      let k : TopicKey := (tt, ti)
      let subs0 :=
        match dlookup m.subscriptions k with
        | none => []
        | some s => s
      let m1 := { m with subscriptions := dset m.subscriptions k (sadd subs0 c) }
      let ts0 :=
        match dlookup m1.client_topics c with
        | none => []
        | some ts => ts
      .ok { m1 with client_topics := dset m1.client_topics c (sadd ts0 k) }

/-- `unsubscribe`: warn-and-return for a client that is not connected;
otherwise remove the one subscription. -/
def Manager.unsubscribe (m : Manager) (c : ClientId) (tt ti : String) : Manager :=
  match dlookup m.active_connections c with
  | none => m
  | some _ => m._remove_subscription c (tt, ti)

/-- `get_subscribers`: collect the websocket of every subscribed client that
is still in `active_connections`, then remove the stale subscriber ids from
the indexes.  Returns the websocket list together with the mutated manager. -/
def Manager.get_subscribers (m : Manager) (tt ti : String) :
    List Nat × Manager :=
  let k : TopicKey := (tt, ti)
  match dlookup m.subscriptions k with
  | none => ([], m)
  | some subs =>
      let wss := subs.filterMap (fun c => (dlookup m.active_connections c).map (·.ws))
      let stale := subs.filter (fun c => decide (dlookup m.active_connections c = none))
      (wss, stale.foldl (fun acc c => acc._remove_subscription c k) m)

/-- `get_client_id`: reverse lookup of the client id owning a websocket. -/
def Manager.get_client_id (m : Manager) (w : Nat) : Option ClientId :=
  (m.active_connections.find? (fun p => decide (p.2.ws = w))).map (·.1)

/-- `get_connection_count`. -/
def Manager.get_connection_count (m : Manager) : Nat := m.active_connections.length

/-- `get_subscription_count`: total number of subscriptions over all topics. -/
def Manager.get_subscription_count (m : Manager) : Nat :=
  (m.subscriptions.map (fun p => p.2.length)).sum

/-- `get_client_subscriptions`. -/
def Manager.get_client_subscriptions (m : Manager) (c : ClientId) : List TopicKey :=
  match dlookup m.client_topics c with
  | none => []
  | some ts => ts

/-! ## Well-formedness and the registry consistency invariant -/

/-- Representation well-formedness that every Python state of the manager
has by construction: the three dicts have no duplicate keys and the stored
sets have no duplicate elements. -/
def Manager.WF (m : Manager) : Prop :=
  NodupKeys m.active_connections ∧ NodupKeys m.subscriptions ∧
  NodupKeys m.client_topics ∧
  (∀ p ∈ m.subscriptions, p.2.Nodup) ∧
  (∀ p ∈ m.client_topics, p.2.Nodup)

/-- The registry consistency invariant: the topic-to-clients index and the
client-to-topics index mirror each other, the key set of `client_topics`
equals the key set of `active_connections`, and no topic key maps to an
empty subscriber set. -/
def Manager.Inv (m : Manager) : Prop :=
  (∀ k s, dlookup m.subscriptions k = some s →
    ∀ c ∈ s, ∃ ts, dlookup m.client_topics c = some ts ∧ k ∈ ts) ∧
  (∀ c ts, dlookup m.client_topics c = some ts →
    ∀ k ∈ ts, ∃ s, dlookup m.subscriptions k = some s ∧ c ∈ s) ∧
  (∀ c, (dlookup m.client_topics c).isSome = (dlookup m.active_connections c).isSome) ∧
  (∀ k s, dlookup m.subscriptions k = some s → s ≠ [])

instance (m : Manager) : Decidable m.WF := by
  unfold Manager.WF NodupKeys
  infer_instance

/-! ## Message persistence (`models/message.py`, `services/message_persistence.py`) -/

/-- The `(topic_type, topic_id, message_type)` scope key of the sequence
allocator. -/
abbrev Scope := String × String × String

/-- The validated input of a publish request (`MessageCreate`): it carries
no `message_id` field, so the service always persists without an explicit
sequence. -/
structure MessageCreate where
  topic_type : String
  topic_id : String
  message_type : String
  sender_type : String
  sender_id : String
  content_type : String
  content : String
deriving DecidableEq, Repr

/-- A row of the `messages` table (`Message` ORM model).  `message_id` is a
`BigInteger` (modelled as `Int`), `created_at` a timestamp (modelled as a
natural number assigned at commit time). -/
structure Message where
  topic_type : String
  topic_id : String
  message_type : String
  message_id : Int
  sender_type : String
  sender_id : String
  content_type : String
  content : String
  created_at : Nat
deriving DecidableEq, Repr

/-- The scope key of a persisted row. -/
def Message.scope (r : Message) : Scope := (r.topic_type, r.topic_id, r.message_type)

/-- The scope key of a publish request. -/
def MessageCreate.scope (md : MessageCreate) : Scope :=
  (md.topic_type, md.topic_id, md.message_type)

/-- SQL `MAX` of a column, with `COALESCE(..., 0)`: `0` on an empty result
set, the true maximum otherwise. -/
def sqlMax : List Int → Int
  | [] => 0
  | [a] => a
  | a :: b :: rest => max a (sqlMax (b :: rest))

/-- The `message_id`s of the rows in one scope, in table order: the result
of `SELECT message_id FROM messages WHERE topic_type = ... AND topic_id =
... AND message_type = ...`. -/
def scopeIds (db : List Message) (s : Scope) : List Int :=
  (db.filter (fun r => decide (r.scope = s))).map (fun r => r.message_id)

/-- The `generate_message_id_listener` query:
`SELECT COALESCE(MAX(message_id), 0) + 1 FROM messages WHERE <scope>`. -/
def generate_message_id (db : List Message) (s : Scope) : Int :=
  sqlMax (scopeIds db s) + 1

/-- Where an injected non-constraint storage error strikes during a
`persist_message` call: nowhere, at `db_session.commit()` (before the
transaction becomes durable), or at the `db_session.refresh(...)` on line
48 of `message_persistence.py`, which only runs after the commit has
already succeeded. -/
inductive Fault where
  | noFault
  | commitFault
  | refreshFault
deriving DecidableEq, Repr

/-- One `persist_message` call against table state `db`, committing at time
`now`.  `explicit` is the `message_id` already present on the ORM object
(the `before_insert` listener only allocates when it is `none`); the
service itself never sets it.  Control flow of the source: `commit` raises
`IntegrityError` on a duplicate primary key, or the injected fault when it
strikes the commit — in both cases the handler's `rollback` leaves the
table unchanged and a `MessagePersistenceError` (the `.error` case) is
raised.  When the commit succeeds the row is durably stored; if the fault
then strikes the `refresh`, the handler's `rollback` is a no-op against
the already-committed transaction, so the error is raised while the new
row stays in the table.  Otherwise the ORM object is returned. -/
def persistWith (db : List Message) (now : Nat) (md : MessageCreate)
    (explicit : Option Int) (fault : Fault) :
    List Message × Except String Message :=
  let mid :=
    match explicit with
    | some i => i
    | none => generate_message_id db md.scope
  let row : Message :=
    ⟨md.topic_type, md.topic_id, md.message_type, mid,
     md.sender_type, md.sender_id, md.content_type, md.content, now⟩
  if db.any (fun r => decide (r.scope = row.scope ∧ r.message_id = mid)) then
    (db, .error "IntegrityError: duplicate primary key")
  else if fault = Fault.commitFault then
    (db, .error "unexpected error during message persistence")
  else if fault = Fault.refreshFault then
    (db ++ [row], .error "unexpected error during message persistence")
  else
    (db ++ [row], .ok row)

/-- `MessagePersistenceService.persist_message`: the ORM object is built
without a `message_id`, so the sequence is always allocated by the
listener. -/
def persist_message (db : List Message) (now : Nat) (md : MessageCreate)
    (fault : Fault) : List Message × Except String Message :=
  persistWith db now md none fault

/-- `n` successive `persist_message` calls into one table, collecting the
assigned `message_id`s of the successful calls. -/
def persistN (db : List Message) (now : Nat) (md : MessageCreate) :
    Nat → List Message × List Int
  | 0 => (db, [])
  | Nat.succ n =>
      let p := persistN db now md n
      match persist_message p.1 now md Fault.noFault with
      | (db2, .ok r) => (db2, p.2 ++ [r.message_id])
      | (db2, .error _) => (db2, p.2)

/-- The list `[1, 2, ..., n]` of `Int` sequence numbers. -/
def idRange : Nat → List Int
  | 0 => []
  | Nat.succ n => idRange n ++ [(n + 1 : Int)]

/-! ## The websocket receive loop (`routers/websocket_router.py`) -/

/-- An inbound frame after parsing: a well-formed `subscribe` or
`unsubscribe` request, a frame whose `type` discriminator is anything else,
or a frame that fails to parse (carrying the parser's error detail). -/
inductive InFrame where
  | subscribeF (tt ti : String)
  | unsubscribeF (tt ti : String)
  | unknownF (t : String)
  | malformedF (detail : String)
deriving DecidableEq, Repr

/-- An outbound frame of the receive loop. -/
inductive OutFrame where
  | ackF (request_id : String) (success : Bool)
  | errorF (msg : String)
deriving DecidableEq, Repr

/-- One iteration of the `websocket_endpoint` message loop for client `c`:
returns the manager after the iteration, the outbound frames delivered to
the client, and whether the loop continues (`false` means the loop breaks
because an outbound send failed).  `sendOk` abstracts whether sends to this
client currently succeed.  Note that no branch touches
`active_connections`: the loop never refreshes `last_activity_at`. -/
def handleFrame (m : Manager) (c : ClientId) (f : InFrame) (sendOk : Bool) :
    Manager × List OutFrame × Bool :=
  match f with
  | .subscribeF tt ti =>
      match m.subscribe c tt ti with
      | .ok m' =>
          if sendOk then (m', [.ackF "subscribe" true], true) else (m', [], false)
      | .error e =>
          if sendOk then (m, [.errorF ("Failed to process message: " ++ e)], true)
          else (m, [], false)
  | .unsubscribeF tt ti =>
      let m' := m.unsubscribe c tt ti
      if sendOk then (m', [.ackF "unsubscribe" true], true) else (m', [], false)
  | .unknownF t =>
      if sendOk then (m, [.errorF ("Unknown message type: " ++ t)], true)
      else (m, [], false)
  | .malformedF detail =>
      if sendOk then (m, [.errorF ("Failed to process message: " ++ detail)], true)
      else (m, [], false)

/-! ## The liveness monitor (`app.py`, `stale_connection_cleanup_task`) -/

/-- One tick of the stale-connection cleanup task at time `now`: snapshot
the connection items, and close (code `1000`, reason `"Inactivity timeout"`)
and disconnect every connection whose inactivity exceeds the timeout.
Returns the manager after the tick and the close events issued. -/
def cleanupTick (m : Manager) (now timeout : Nat) :
    Manager × List (Nat × Nat × String) :=
  m.active_connections.foldl
    (fun acc p =>
      if timeout < now - p.2.lastActivity then
        (acc.1.disconnect p.1, acc.2 ++ [(p.2.ws, 1000, "Inactivity timeout")])
      else acc)
    (m, [])

/-! ## The broadcast publisher (`services/websocket_publisher.py`) -/

/-- The outcome of awaiting `websocket.send_json` on one channel:
success, a `WebSocketDisconnect`, or any other exception. -/
inductive SendOutcome where
  | ok
  | disconnected
  | otherError
deriving DecidableEq, Repr

/-- The body of the publisher's per-subscriber loop: attempt the send and
record its outcome.  A `WebSocketDisconnect` is logged and the failed
channel's connection id is resolved via `get_client_id` and disconnected
when found; any other send error is logged and skipped. -/
def publishStep (send : Nat → SendOutcome)
    (acc : Manager × List (Nat × SendOutcome)) (w : Nat) :
    Manager × List (Nat × SendOutcome) :=
  match send w with
  | .ok => (acc.1, acc.2 ++ [(w, SendOutcome.ok)])
  | .disconnected =>
      let m' :=
        match acc.1.get_client_id w with
        | some cid => acc.1.disconnect cid
        | none => acc.1
      (m', acc.2 ++ [(w, SendOutcome.disconnected)])
  | .otherError => (acc.1, acc.2 ++ [(w, SendOutcome.otherError)])

/-- `WebSocketPublisher.publish_message` for a message on topic
`(tt, ti)`, with `send` giving each channel's outcome: resolve the
subscribers, then run the per-subscriber send loop best-effort.  Returns
the manager after the call and the attempted sends with their outcomes; no
failure escapes to the caller. -/
def publish_message (m : Manager) (tt ti : String) (send : Nat → SendOutcome) :
    Manager × List (Nat × SendOutcome) :=
  let gs := m.get_subscribers tt ti
  gs.1.foldl (publishStep send) (gs.2, [])

/-! ## Lemmas about the dict and set primitives -/

section DictSetLemmas

variable {K V A : Type} [DecidableEq K] [DecidableEq A]

theorem dlookup_dset_self (d : List (K × V)) (k : K) (v : V) :
    dlookup (dset d k v) k = some v := by
  induction d with
  | nil => simp [dset, dlookup]
  | cons p rest ih =>
      by_cases h : p.1 = k
      · simp [dset, h, dlookup]
      · simp [dset, h, dlookup, ih]

theorem dlookup_dset_ne (d : List (K × V)) {k k' : K} (v : V) (h : k' ≠ k) :
    dlookup (dset d k v) k' = dlookup d k' := by
  have hk : k ≠ k' := fun hh => h hh.symm
  induction d with
  | nil => simp [dset, dlookup, hk]
  | cons p rest ih =>
      by_cases hp : p.1 = k
      · rw [dset, if_pos hp, dlookup, if_neg hk, dlookup, if_neg (hp ▸ hk)]
      · rw [dset, if_neg hp]
        by_cases hp' : p.1 = k'
        · rw [dlookup, if_pos hp', dlookup, if_pos hp']
        · rw [dlookup, if_neg hp', dlookup, if_neg hp', ih]

theorem dlookup_ddel_self (d : List (K × V)) (k : K) :
    dlookup (ddel d k) k = none := by
  induction d with
  | nil => rfl
  | cons p rest ih =>
      by_cases h : p.1 = k
      · show dlookup ((p :: rest).filter _) k = none
        rw [List.filter_cons_of_neg (by simpa using h)]
        exact ih
      · show dlookup ((p :: rest).filter _) k = none
        rw [List.filter_cons_of_pos (by simpa using h), dlookup, if_neg h]
        exact ih

theorem dlookup_ddel_ne (d : List (K × V)) {k k' : K} (h : k' ≠ k) :
    dlookup (ddel d k) k' = dlookup d k' := by
  induction d with
  | nil => rfl
  | cons p rest ih =>
      by_cases hp : p.1 = k
      · have hp' : p.1 ≠ k' := by rw [hp]; exact fun hh => h hh.symm
        show dlookup ((p :: rest).filter _) k' = dlookup (p :: rest) k'
        rw [List.filter_cons_of_neg (by simpa using hp), dlookup, if_neg hp']
        exact ih
      · show dlookup ((p :: rest).filter _) k' = dlookup (p :: rest) k'
        rw [List.filter_cons_of_pos (by simpa using hp)]
        by_cases hp' : p.1 = k'
        · rw [dlookup, if_pos hp', dlookup, if_pos hp']
        · rw [dlookup, if_neg hp', dlookup, if_neg hp']
          exact ih

theorem dlookup_none_iff (d : List (K × V)) (k : K) :
    dlookup d k = none ↔ ∀ p ∈ d, p.1 ≠ k := by
  induction d with
  | nil => simp [dlookup]
  | cons p rest ih =>
      by_cases h : p.1 = k
      · simp [dlookup, h]
      · simp [dlookup, h, ih]

theorem ddel_of_dlookup_none (d : List (K × V)) (k : K)
    (h : dlookup d k = none) : ddel d k = d := by
  rw [dlookup_none_iff] at h
  exact List.filter_eq_self.mpr (fun p hp => by simpa using h p hp)

theorem mem_of_dlookup {d : List (K × V)} {k : K} {v : V}
    (h : dlookup d k = some v) : (k, v) ∈ d := by
  induction d with
  | nil => simp [dlookup] at h
  | cons p rest ih =>
      by_cases hp : p.1 = k
      · rw [dlookup, if_pos hp, Option.some.injEq] at h
        have hpv : p = (k, v) := by
          obtain ⟨p1, p2⟩ := p
          simp only at hp h
          rw [hp, h]
        exact hpv ▸ List.mem_cons_self p rest
      · rw [dlookup, if_neg hp] at h
        exact List.mem_cons_of_mem _ (ih h)

theorem dset_dset (d : List (K × V)) (k : K) (v w : V) :
    dset (dset d k v) k w = dset d k w := by
  induction d with
  | nil => simp [dset]
  | cons p rest ih =>
      by_cases h : p.1 = k
      · simp [dset, h]
      · simp [dset, h, ih]

theorem mem_dset {d : List (K × V)} {k : K} {v : V} {p : K × V}
    (h : p ∈ dset d k v) : p ∈ d ∨ p = (k, v) := by
  induction d with
  | nil =>
      simp only [dset, List.mem_singleton] at h
      right; exact h
  | cons q rest ih =>
      by_cases hq : q.1 = k
      · rw [dset, if_pos hq, List.mem_cons] at h
        rcases h with h | h
        · right; exact h
        · left; exact List.mem_cons_of_mem _ h
      · rw [dset, if_neg hq, List.mem_cons] at h
        rcases h with h | h
        · left; exact h ▸ List.mem_cons_self q rest
        · rcases ih h with h' | h'
          · left; exact List.mem_cons_of_mem _ h'
          · right; exact h'

theorem mem_dkeys_dset {d : List (K × V)} {k x : K} {v : V}
    (h : x ∈ dkeys (dset d k v)) : x ∈ dkeys d ∨ x = k := by
  rcases List.mem_map.mp h with ⟨p, hp, hx⟩
  rcases mem_dset hp with h' | h'
  · left; exact hx ▸ List.mem_map_of_mem Prod.fst h'
  · right; rw [← hx, h']

theorem nodupKeys_dset (d : List (K × V)) (k : K) (v : V)
    (h : NodupKeys d) : NodupKeys (dset d k v) := by
  induction d with
  | nil => simp [dset, NodupKeys]
  | cons p rest ih =>
      unfold NodupKeys at h
      rw [List.map_cons, List.nodup_cons] at h
      by_cases hp : p.1 = k
      · unfold NodupKeys
        rw [dset, if_pos hp, List.map_cons, List.nodup_cons]
        exact ⟨hp ▸ h.1, h.2⟩
      · have ih' := ih h.2
        unfold NodupKeys
        rw [dset, if_neg hp, List.map_cons, List.nodup_cons]
        refine ⟨fun hmem => ?_, ih'⟩
        rcases mem_dkeys_dset hmem with h' | h'
        · exact h.1 h'
        · exact hp h'

theorem nodupKeys_ddel (d : List (K × V)) (k : K)
    (h : NodupKeys d) : NodupKeys (ddel d k) := by
  unfold NodupKeys at h ⊢
  exact ((List.filter_sublist d).map Prod.fst).nodup h

theorem mem_ddel {d : List (K × V)} {k : K} {p : K × V}
    (h : p ∈ ddel d k) : p ∈ d :=
  List.mem_of_mem_filter h

theorem ddel_cons_of_nodup {p : K × V} {rest : List (K × V)}
    (h : NodupKeys (p :: rest)) : ddel rest p.1 = rest := by
  apply ddel_of_dlookup_none
  rw [dlookup_none_iff]
  intro q hq hqk
  unfold NodupKeys at h
  rw [List.map_cons, List.nodup_cons] at h
  exact h.1 (hqk ▸ List.mem_map_of_mem Prod.fst hq)

theorem sum_len_dset (d : List (K × List A)) (k : K) {s : List A} (v : List A)
    (h : dlookup d k = some s) :
    ((dset d k v).map (fun p => p.2.length)).sum + s.length
      = (d.map (fun p => p.2.length)).sum + v.length := by
  induction d with
  | nil => simp [dlookup] at h
  | cons p rest ih =>
      by_cases hp : p.1 = k
      · rw [dlookup, if_pos hp, Option.some.injEq] at h
        rw [dset, if_pos hp]
        simp [h]
        omega
      · rw [dlookup, if_neg hp] at h
        have := ih h
        rw [dset, if_neg hp]
        simp only [List.map_cons, List.sum_cons] at this ⊢
        omega

theorem sum_len_ddel (d : List (K × List A)) (k : K) {s : List A}
    (hnd : NodupKeys d) (h : dlookup d k = some s) :
    ((ddel d k).map (fun p => p.2.length)).sum + s.length
      = (d.map (fun p => p.2.length)).sum := by
  induction d with
  | nil => simp [dlookup] at h
  | cons p rest ih =>
      by_cases hp : p.1 = k
      · rw [dlookup, if_pos hp, Option.some.injEq] at h
        have heq : ddel (p :: rest) k = rest := by
          show (p :: rest).filter _ = rest
          rw [List.filter_cons_of_neg (by simpa using hp)]
          exact hp ▸ ddel_cons_of_nodup hnd
        rw [heq]
        simp only [List.map_cons, List.sum_cons, h]
        omega
      · rw [dlookup, if_neg hp] at h
        unfold NodupKeys at hnd
        rw [List.map_cons, List.nodup_cons] at hnd
        have := ih hnd.2 h
        have heq : ddel (p :: rest) k = p :: ddel rest k := by
          show (p :: rest).filter _ = _
          rw [List.filter_cons_of_pos (by simpa using hp)]
          rfl
        rw [heq]
        simp only [List.map_cons, List.sum_cons] at this ⊢
        omega

theorem mem_sadd_iff (s : List A) (a b : A) : b ∈ sadd s a ↔ b ∈ s ∨ b = a := by
  by_cases h : a ∈ s
  · unfold sadd
    rw [if_pos h]
    constructor
    · exact Or.inl
    · rintro (hb | rfl)
      · exact hb
      · exact h
  · unfold sadd
    rw [if_neg h]
    simp

theorem sadd_idem (s : List A) (a : A) : sadd (sadd s a) a = sadd s a := by
  have h : a ∈ sadd s a := (mem_sadd_iff s a a).mpr (Or.inr rfl)
  show (if a ∈ sadd s a then sadd s a else sadd s a ++ [a]) = sadd s a
  rw [if_pos h]

theorem sadd_ne_nil (s : List A) (a : A) : sadd s a ≠ [] := by
  intro hnil
  have : a ∈ sadd s a := (mem_sadd_iff s a a).mpr (Or.inr rfl)
  rw [hnil] at this
  simp at this

theorem nodup_sadd (s : List A) (a : A) (h : s.Nodup) : (sadd s a).Nodup := by
  by_cases ha : a ∈ s
  · unfold sadd; rw [if_pos ha]; exact h
  · unfold sadd; rw [if_neg ha]
    refine List.Nodup.append h (List.nodup_singleton a) ?_
    intro b hb hba
    rw [List.mem_singleton] at hba
    exact ha (hba ▸ hb)

theorem count_sadd_self (s : List A) (a : A) (h : s.Nodup) :
    (sadd s a).count a = 1 := by
  by_cases ha : a ∈ s
  · unfold sadd; rw [if_pos ha]
    exact List.count_eq_one_of_mem h ha
  · unfold sadd; rw [if_neg ha, List.count_append]
    rw [List.count_eq_zero.mpr ha]
    simp

theorem mem_sdiscard_iff (s : List A) (a b : A) :
    b ∈ sdiscard s a ↔ b ∈ s ∧ b ≠ a := by
  simp [sdiscard, List.mem_filter]

theorem not_mem_sdiscard_self (s : List A) (a : A) : a ∉ sdiscard s a := by
  rw [mem_sdiscard_iff]
  rintro ⟨-, h⟩
  exact h rfl

theorem nodup_sdiscard (s : List A) (a : A) (h : s.Nodup) :
    (sdiscard s a).Nodup := h.filter _

theorem sdiscard_of_not_mem {s : List A} {a : A} (h : a ∉ s) :
    sdiscard s a = s :=
  List.filter_eq_self.mpr (fun b hb => by
    simp only [decide_eq_true_eq]
    rintro rfl
    exact h hb)

theorem length_sdiscard (s : List A) (a : A) (h : s.Nodup) (ha : a ∈ s) :
    (sdiscard s a).length + 1 = s.length := by
  induction s with
  | nil => simp at ha
  | cons x rest ih =>
      rw [List.nodup_cons] at h
      by_cases hx : x = a
      · subst hx
        have h1 : sdiscard (x :: rest) x = sdiscard rest x := by
          show (x :: rest).filter _ = _
          rw [List.filter_cons_of_neg (by simp)]
          rfl
        rw [h1, sdiscard_of_not_mem h.1]
        simp
      · have ha' : a ∈ rest := by
          rcases List.mem_cons.mp ha with h' | h'
          · exact absurd h'.symm hx
          · exact h'
        have h1 : sdiscard (x :: rest) a = x :: sdiscard rest a := by
          show (x :: rest).filter _ = _
          rw [List.filter_cons_of_pos (by simpa using hx)]
          rfl
        rw [h1]
        have := ih h.2 ha'
        simp only [List.length_cons]
        omega

end DictSetLemmas

/-! ## Lemmas about `_remove_subscription` and its folds -/

/-- Characterization of `_remove_subscription` as a record update. -/
theorem rs_eq (m : Manager) (c : ClientId) (k : TopicKey) :
    m._remove_subscription c k =
      { m with
        subscriptions :=
          match dlookup m.subscriptions k with
          | none => m.subscriptions
          | some subs =>
              if sdiscard subs c = [] then ddel m.subscriptions k
              else dset m.subscriptions k (sdiscard subs c),
        client_topics :=
          match dlookup m.client_topics c with
          | none => m.client_topics
          | some ts => dset m.client_topics c (sdiscard ts k) } := by
  unfold Manager._remove_subscription
  cases hs : dlookup m.subscriptions k with
  | none => cases hct : dlookup m.client_topics c <;> simp [hs, hct]
  | some subs =>
      by_cases he : sdiscard subs c = [] <;>
        cases hct : dlookup m.client_topics c <;> simp [hs, hct, he]

theorem rs_active (m : Manager) (c : ClientId) (k : TopicKey) :
    (m._remove_subscription c k).active_connections = m.active_connections := by
  rw [rs_eq]

theorem rs_subs_lookup_ne (m : Manager) (c : ClientId) {k k' : TopicKey}
    (h : k' ≠ k) :
    dlookup (m._remove_subscription c k).subscriptions k'
      = dlookup m.subscriptions k' := by
  rw [rs_eq]
  cases hs : dlookup m.subscriptions k with
  | none => rfl
  | some subs =>
      by_cases he : sdiscard subs c = [] <;>
        simp [he, dlookup_ddel_ne _ h, dlookup_dset_ne _ _ h]

theorem rs_subs_lookup_self (m : Manager) (c : ClientId) (k : TopicKey) :
    dlookup (m._remove_subscription c k).subscriptions k =
      match dlookup m.subscriptions k with
      | none => none
      | some subs =>
          if sdiscard subs c = [] then none else some (sdiscard subs c) := by
  rw [rs_eq]
  cases hs : dlookup m.subscriptions k with
  | none => exact hs
  | some subs =>
      by_cases he : sdiscard subs c = [] <;>
        simp [he, dlookup_ddel_self, dlookup_dset_self]

theorem rs_ct_lookup_ne (m : Manager) (k : TopicKey) {c c' : ClientId}
    (h : c' ≠ c) :
    dlookup (m._remove_subscription c k).client_topics c'
      = dlookup m.client_topics c' := by
  rw [rs_eq]
  cases hct : dlookup m.client_topics c with
  | none => rfl
  | some ts => simp [dlookup_dset_ne _ _ h]

theorem rs_ct_lookup_self (m : Manager) (c : ClientId) (k : TopicKey) :
    dlookup (m._remove_subscription c k).client_topics c
      = (dlookup m.client_topics c).map (fun ts => sdiscard ts k) := by
  rw [rs_eq]
  cases hct : dlookup m.client_topics c with
  | none => simpa using hct
  | some ts => simp [dlookup_dset_self]

/-- `_remove_subscription` preserves representation well-formedness. -/
theorem rs_WF (m : Manager) (c : ClientId) (k : TopicKey) (h : m.WF) :
    (m._remove_subscription c k).WF := by
  obtain ⟨h1, h2, h3, h4, h5⟩ := h
  rw [rs_eq]
  refine ⟨h1, ?_, ?_, ?_, ?_⟩
  · cases hs : dlookup m.subscriptions k with
    | none => exact h2
    | some subs =>
        by_cases he : sdiscard subs c = []
        · simpa [he] using nodupKeys_ddel m.subscriptions k h2
        · simpa [he] using nodupKeys_dset m.subscriptions k _ h2
  · cases hct : dlookup m.client_topics c with
    | none => exact h3
    | some ts => simpa using nodupKeys_dset m.client_topics c _ h3
  · cases hs : dlookup m.subscriptions k with
    | none => exact h4
    | some subs =>
        by_cases he : sdiscard subs c = []
        · intro p hp
          simp only [he, if_pos] at hp
          exact h4 p (mem_ddel hp)
        · intro p hp
          simp only [he, if_neg, if_false] at hp
          rcases mem_dset hp with h' | h'
          · exact h4 p h'
          · rw [h']
            exact nodup_sdiscard subs c (h4 _ (mem_of_dlookup hs))
  · cases hct : dlookup m.client_topics c with
    | none => exact h5
    | some ts =>
        intro p hp
        simp only at hp
        rcases mem_dset hp with h' | h'
        · exact h5 p h'
        · rw [h']
          exact nodup_sdiscard ts k (h5 _ (mem_of_dlookup hct))

theorem rs_subs_lookup_self_none (m : Manager) (c : ClientId) (k : TopicKey)
    (hs : dlookup m.subscriptions k = none) :
    dlookup (m._remove_subscription c k).subscriptions k = none := by
  rw [rs_subs_lookup_self, hs]

theorem rs_subs_lookup_self_some (m : Manager) (c : ClientId) (k : TopicKey)
    {subs : List ClientId} (hs : dlookup m.subscriptions k = some subs) :
    dlookup (m._remove_subscription c k).subscriptions k
      = if sdiscard subs c = [] then none else some (sdiscard subs c) := by
  rw [rs_subs_lookup_self, hs]

/-- `_remove_subscription` never puts a client back into the subscriber set
of its topic, and never puts the topic back into a client's topic set. -/
theorem rs_stale_removed (m : Manager) (c : ClientId) (k : TopicKey) :
    (∀ s, dlookup (m._remove_subscription c k).subscriptions k = some s → c ∉ s) ∧
    (∀ ts, dlookup (m._remove_subscription c k).client_topics c = some ts → k ∉ ts) := by
  constructor
  · intro s hlk
    cases hs : dlookup m.subscriptions k with
    | none => rw [rs_subs_lookup_self_none m c k hs] at hlk; exact absurd hlk (by simp)
    | some subs =>
        rw [rs_subs_lookup_self_some m c k hs] at hlk
        by_cases he : sdiscard subs c = []
        · rw [if_pos he] at hlk; exact absurd hlk (by simp)
        · rw [if_neg he, Option.some.injEq] at hlk
          rw [← hlk]
          exact not_mem_sdiscard_self subs c
  · intro ts hlk
    rw [rs_ct_lookup_self] at hlk
    cases hct : dlookup m.client_topics c with
    | none => rw [hct] at hlk; exact absurd hlk (by simp)
    | some ts0 =>
        rw [hct, Option.map_some', Option.some.injEq] at hlk
        rw [← hlk]
        exact not_mem_sdiscard_self ts0 k

/-- Once a stale client is out of the indexes for a topic, further
`_remove_subscription` calls on that topic keep it out. -/
theorem rs_stale_stays_removed (m : Manager) (c c₀ : ClientId) (k : TopicKey)
    (h : (∀ s, dlookup m.subscriptions k = some s → c₀ ∉ s) ∧
         (∀ ts, dlookup m.client_topics c₀ = some ts → k ∉ ts)) :
    (∀ s, dlookup (m._remove_subscription c k).subscriptions k = some s → c₀ ∉ s) ∧
    (∀ ts, dlookup (m._remove_subscription c k).client_topics c₀ = some ts → k ∉ ts) := by
  constructor
  · intro s hlk
    cases hs : dlookup m.subscriptions k with
    | none => rw [rs_subs_lookup_self_none m c k hs] at hlk; exact absurd hlk (by simp)
    | some subs =>
        rw [rs_subs_lookup_self_some m c k hs] at hlk
        by_cases he : sdiscard subs c = []
        · rw [if_pos he] at hlk; exact absurd hlk (by simp)
        · rw [if_neg he, Option.some.injEq] at hlk
          intro hmem
          rw [← hlk] at hmem
          exact h.1 subs hs ((mem_sdiscard_iff subs c c₀).mp hmem).1
  · by_cases hcc : c₀ = c
    · subst hcc
      exact (rs_stale_removed m c₀ k).2
    · intro ts hlk
      rw [rs_ct_lookup_ne m k hcc] at hlk
      exact h.2 ts hlk

/-! ## Lemmas about folded `_remove_subscription` (disconnect, stale cleanup) -/

theorem foldrs_active (l : List TopicKey) (c : ClientId) :
    ∀ m : Manager,
      (l.foldl (fun acc k => acc._remove_subscription c k) m).active_connections
        = m.active_connections := by
  induction l with
  | nil => intro m; rfl
  | cons k l ih =>
      intro m
      rw [List.foldl_cons, ih (m._remove_subscription c k), rs_active]

theorem foldrs_ct_ne (l : List TopicKey) (c : ClientId) {c' : ClientId}
    (h : c' ≠ c) :
    ∀ m : Manager,
      dlookup (l.foldl (fun acc k => acc._remove_subscription c k) m).client_topics c'
        = dlookup m.client_topics c' := by
  induction l with
  | nil => intro m; rfl
  | cons k l ih =>
      intro m
      rw [List.foldl_cons, ih (m._remove_subscription c k), rs_ct_lookup_ne _ _ h]

theorem foldrs_subs_not_mem (l : List TopicKey) (c : ClientId) (k : TopicKey)
    (h : k ∉ l) :
    ∀ m : Manager,
      dlookup (l.foldl (fun acc k => acc._remove_subscription c k) m).subscriptions k
        = dlookup m.subscriptions k := by
  induction l with
  | nil => intro m; rfl
  | cons k' l ih =>
      intro m
      rw [List.mem_cons, not_or] at h
      rw [List.foldl_cons, ih h.2 (m._remove_subscription c k'),
        rs_subs_lookup_ne _ _ (fun hh => h.1 hh)]

theorem foldrs_subs_mem (l : List TopicKey) (c : ClientId) (k : TopicKey) :
    ∀ m : Manager, k ∈ l → l.Nodup →
      dlookup (l.foldl (fun acc k => acc._remove_subscription c k) m).subscriptions k =
        match dlookup m.subscriptions k with
        | none => none
        | some subs =>
            if sdiscard subs c = [] then none else some (sdiscard subs c) := by
  induction l with
  | nil => intro m hk _; simp at hk
  | cons k' l ih =>
      intro m hk hnd
      rw [List.nodup_cons] at hnd
      by_cases hh : k = k'
      · subst hh
        rw [List.foldl_cons, foldrs_subs_not_mem l c k hnd.1 (m._remove_subscription c k),
          rs_subs_lookup_self]
      · have hk' : k ∈ l := by
          rcases List.mem_cons.mp hk with h' | h'
          · exact absurd h' hh
          · exact h'
        have := ih (m._remove_subscription c k') hk' hnd.2
        rw [rs_subs_lookup_ne _ _ hh] at this
        rw [List.foldl_cons]
        exact this

theorem foldrs_WF (l : List TopicKey) (c : ClientId) :
    ∀ m : Manager, m.WF →
      (l.foldl (fun acc k => acc._remove_subscription c k) m).WF := by
  induction l with
  | nil => intro m h; exact h
  | cons k l ih =>
      intro m h
      rw [List.foldl_cons]
      exact ih _ (rs_WF m c k h)

theorem foldrs_stale_preserve (l : List ClientId) (k : TopicKey) (c₀ : ClientId) :
    ∀ m : Manager,
      (∀ s, dlookup m.subscriptions k = some s → c₀ ∉ s) ∧
        (∀ ts, dlookup m.client_topics c₀ = some ts → k ∉ ts) →
      (∀ s, dlookup (l.foldl (fun acc c => acc._remove_subscription c k) m).subscriptions k
          = some s → c₀ ∉ s) ∧
      (∀ ts, dlookup (l.foldl (fun acc c => acc._remove_subscription c k) m).client_topics c₀
          = some ts → k ∉ ts) := by
  induction l with
  | nil => intro m h; exact h
  | cons c l ih =>
      intro m h
      rw [List.foldl_cons]
      exact ih _ (rs_stale_stays_removed m c c₀ k h)

/-- After the stale-cleanup fold runs over a list containing a client, that
client is out of both subscription indexes for the topic. -/
theorem foldrs_stale (l : List ClientId) (k : TopicKey) (c₀ : ClientId)
    (hc : c₀ ∈ l) :
    ∀ m : Manager,
      (∀ s, dlookup (l.foldl (fun acc c => acc._remove_subscription c k) m).subscriptions k
          = some s → c₀ ∉ s) ∧
      (∀ ts, dlookup (l.foldl (fun acc c => acc._remove_subscription c k) m).client_topics c₀
          = some ts → k ∉ ts) := by
  induction l with
  | nil => simp at hc
  | cons c l ih =>
      intro m
      rw [List.foldl_cons]
      by_cases hh : c₀ = c
      · subst hh
        exact foldrs_stale_preserve l k c₀ _ (rs_stale_removed m c₀ k)
      · have hc' : c₀ ∈ l := by
          rcases List.mem_cons.mp hc with h' | h'
          · exact absurd h' hh
          · exact h'
        exact ih hc' _

/-! ## Lemmas about `disconnect` -/

theorem disconnect_of_not_connected (m : Manager) (c : ClientId)
    (h : dlookup m.active_connections c = none) : m.disconnect c = m := by
  unfold Manager.disconnect
  rw [h]

theorem disconnect_active (m : Manager) (c : ClientId) :
    (m.disconnect c).active_connections = ddel m.active_connections c := by
  unfold Manager.disconnect
  cases hc : dlookup m.active_connections c with
  | none => rw [ddel_of_dlookup_none m.active_connections c hc]
  | some conn =>
      cases hct : dlookup m.client_topics c with
      | none => simp [hct]
      | some ts => simp [hct, foldrs_active]

/-- `disconnect` of a connected client with topic set `ts`, as a record:
remove the connection, fold `_remove_subscription` over the topics, delete
the `client_topics` entry. -/
theorem disconnect_eq (m : Manager) (c : ClientId) {conn : Conn}
    {ts : List TopicKey}
    (hc : dlookup m.active_connections c = some conn)
    (hct : dlookup m.client_topics c = some ts) :
    m.disconnect c =
      { ts.foldl (fun (acc : Manager) k => acc._remove_subscription c k)
          { m with active_connections := ddel m.active_connections c } with
        client_topics :=
          ddel (ts.foldl (fun (acc : Manager) k => acc._remove_subscription c k)
            { m with active_connections := ddel m.active_connections c }).client_topics c } := by
  unfold Manager.disconnect
  simp [hc, hct]

theorem disconnect_WF (m : Manager) (c : ClientId) (hW : m.WF) :
    (m.disconnect c).WF := by
  cases hc : dlookup m.active_connections c with
  | none => rw [disconnect_of_not_connected m c hc]; exact hW
  | some conn =>
      have hW1 : Manager.WF { m with active_connections := ddel m.active_connections c } :=
        ⟨nodupKeys_ddel _ _ hW.1, hW.2.1, hW.2.2.1, hW.2.2.2.1, hW.2.2.2.2⟩
      unfold Manager.disconnect
      rw [hc]
      cases hct : dlookup m.client_topics c with
      | none => simpa [hct] using hW1
      | some ts =>
          simp only [hct]
          have h2 := foldrs_WF ts c _ hW1
          exact ⟨h2.1, h2.2.1, nodupKeys_ddel _ _ h2.2.2.1, h2.2.2.2.1,
            fun p hp => h2.2.2.2.2 p (mem_ddel hp)⟩

/-- The observable effect of `disconnect` on a connected client's state. -/
theorem disconnect_char (m : Manager) (c : ClientId) {conn : Conn}
    {ts : List TopicKey} (hW : m.WF)
    (hc : dlookup m.active_connections c = some conn)
    (hct : dlookup m.client_topics c = some ts) :
    (m.disconnect c).active_connections = ddel m.active_connections c ∧
    dlookup (m.disconnect c).client_topics c = none ∧
    (∀ c', c' ≠ c →
      dlookup (m.disconnect c).client_topics c' = dlookup m.client_topics c') ∧
    (∀ k, k ∉ ts →
      dlookup (m.disconnect c).subscriptions k = dlookup m.subscriptions k) ∧
    (∀ k, k ∈ ts →
      dlookup (m.disconnect c).subscriptions k =
        match dlookup m.subscriptions k with
        | none => none
        | some subs =>
            if sdiscard subs c = [] then none else some (sdiscard subs c)) := by
  have hnd : ts.Nodup := hW.2.2.2.2 _ (mem_of_dlookup hct)
  rw [disconnect_eq m c hc hct]
  refine ⟨?_, ?_, ?_, ?_, ?_⟩
  · show (ts.foldl (fun (acc : Manager) k => acc._remove_subscription c k) _).active_connections = _
    rw [foldrs_active]
  · exact dlookup_ddel_self _ c
  · intro c' hne
    show dlookup (ddel _ c) c' = _
    rw [dlookup_ddel_ne _ hne, foldrs_ct_ne _ _ hne]
  · intro k hk
    show dlookup (ts.foldl (fun (acc : Manager) k => acc._remove_subscription c k) _).subscriptions k = _
    rw [foldrs_subs_not_mem ts c k hk]
  · intro k hk
    show dlookup (ts.foldl (fun (acc : Manager) k => acc._remove_subscription c k) _).subscriptions k = _
    rw [foldrs_subs_mem ts c k _ hk hnd]

/-! ## Subscription-count lemmas -/

theorem rs_sub_count (m : Manager) (c : ClientId) (k : TopicKey)
    {subs : List ClientId} (hW : m.WF)
    (hs : dlookup m.subscriptions k = some subs) (hc : c ∈ subs) :
    (m._remove_subscription c k).get_subscription_count + 1
      = m.get_subscription_count := by
  have hnd : subs.Nodup := hW.2.2.2.1 _ (mem_of_dlookup hs)
  have hlen := length_sdiscard subs c hnd hc
  rw [rs_eq]
  unfold Manager.get_subscription_count
  simp only [hs]
  by_cases he : sdiscard subs c = []
  · rw [if_pos he]
    have h1 := sum_len_ddel m.subscriptions k hW.2.1 hs
    rw [he] at hlen
    simp only [List.length_nil] at hlen
    omega
  · rw [if_neg he]
    have h1 := sum_len_dset m.subscriptions k (sdiscard subs c) hs
    omega

theorem foldrs_sub_count (l : List TopicKey) (c : ClientId) :
    ∀ m : Manager, m.WF → l.Nodup →
      (∀ k ∈ l, ∃ subs, dlookup m.subscriptions k = some subs ∧ c ∈ subs) →
      (l.foldl (fun acc k => acc._remove_subscription c k) m).get_subscription_count
          + l.length
        = m.get_subscription_count := by
  induction l with
  | nil => intro m _ _ _; simp
  | cons k l ih =>
      intro m hW hnd hall
      rw [List.nodup_cons] at hnd
      obtain ⟨subs, hs, hcs⟩ := hall k (List.mem_cons_self k l)
      have h1 := rs_sub_count m c k hW hs hcs
      have hall' : ∀ k' ∈ l,
          ∃ subs', dlookup (m._remove_subscription c k).subscriptions k' = some subs'
            ∧ c ∈ subs' := by
        intro k' hk'
        obtain ⟨subs', hs', hcs'⟩ := hall k' (List.mem_cons_of_mem k hk')
        have hne : k' ≠ k := fun hh => hnd.1 (hh ▸ hk')
        exact ⟨subs', by rw [rs_subs_lookup_ne _ _ hne]; exact hs', hcs'⟩
      have h2 := ih (m._remove_subscription c k) (rs_WF m c k hW) hnd.2 hall'
      rw [List.foldl_cons]
      simp only [List.length_cons]
      omega

/-- After disconnecting a connected client, the total subscription count
drops by exactly the number of topics the client held. -/
theorem disconnect_sub_count (m : Manager) (c : ClientId) {conn : Conn}
    {ts : List TopicKey} (hW : m.WF) (hInv : m.Inv)
    (hc : dlookup m.active_connections c = some conn)
    (hct : dlookup m.client_topics c = some ts) :
    (m.disconnect c).get_subscription_count + ts.length
      = m.get_subscription_count := by
  have hnd : ts.Nodup := hW.2.2.2.2 _ (mem_of_dlookup hct)
  have hW1 : Manager.WF { m with active_connections := ddel m.active_connections c } :=
    ⟨nodupKeys_ddel _ _ hW.1, hW.2.1, hW.2.2.1, hW.2.2.2.1, hW.2.2.2.2⟩
  have hall : ∀ k ∈ ts,
      ∃ subs, dlookup (Manager.mk (ddel m.active_connections c)
          m.subscriptions m.client_topics).subscriptions k = some subs ∧ c ∈ subs :=
    fun k hk => hInv.2.1 c ts hct k hk
  rw [disconnect_eq m c hc hct]
  have hcount := foldrs_sub_count ts c _ hW1 hnd hall
  unfold Manager.get_subscription_count at hcount ⊢
  exact hcount

/-! ## Preservation of the consistency invariant -/

theorem rs_Inv (m : Manager) (c : ClientId) (k : TopicKey) (hInv : m.Inv) :
    (m._remove_subscription c k).Inv := by
  obtain ⟨i1, i2, i3, i4⟩ := hInv
  refine ⟨?_, ?_, ?_, ?_⟩
  · intro k0 s0 hs0 c0 hc0
    by_cases hk : k0 = k
    · subst hk
      cases hsk : dlookup m.subscriptions k0 with
      | none => rw [rs_subs_lookup_self_none m c k0 hsk] at hs0; cases hs0
      | some subs =>
          rw [rs_subs_lookup_self_some m c k0 hsk] at hs0
          by_cases he : sdiscard subs c = []
          · rw [if_pos he] at hs0; cases hs0
          · rw [if_neg he, Option.some.injEq] at hs0
            subst hs0
            have hmem := (mem_sdiscard_iff subs c c0).mp hc0
            obtain ⟨ts0, hts0, hkts0⟩ := i1 k0 subs hsk c0 hmem.1
            exact ⟨ts0, by rw [rs_ct_lookup_ne m k0 hmem.2]; exact hts0, hkts0⟩
    · rw [rs_subs_lookup_ne m c hk] at hs0
      obtain ⟨ts0, hts0, hkts0⟩ := i1 k0 s0 hs0 c0 hc0
      by_cases hcc : c0 = c
      · subst hcc
        refine ⟨sdiscard ts0 k, ?_, ?_⟩
        · rw [rs_ct_lookup_self, hts0, Option.map_some']
        · exact (mem_sdiscard_iff ts0 k k0).mpr ⟨hkts0, hk⟩
      · exact ⟨ts0, by rw [rs_ct_lookup_ne m k hcc]; exact hts0, hkts0⟩
  · intro c0 ts0 hts0 k0 hk0
    by_cases hcc : c0 = c
    · subst hcc
      rw [rs_ct_lookup_self] at hts0
      cases hct : dlookup m.client_topics c0 with
      | none => rw [hct] at hts0; cases hts0
      | some ts1 =>
          rw [hct, Option.map_some', Option.some.injEq] at hts0
          subst hts0
          have hmem := (mem_sdiscard_iff ts1 k k0).mp hk0
          obtain ⟨s1, hs1, hcs1⟩ := i2 c0 ts1 hct k0 hmem.1
          exact ⟨s1, by rw [rs_subs_lookup_ne m c0 hmem.2]; exact hs1, hcs1⟩
    · rw [rs_ct_lookup_ne m k hcc] at hts0
      obtain ⟨s1, hs1, hcs1⟩ := i2 c0 ts0 hts0 k0 hk0
      by_cases hk : k0 = k
      · subst hk
        have hc0mem : c0 ∈ sdiscard s1 c := (mem_sdiscard_iff s1 c c0).mpr ⟨hcs1, hcc⟩
        have hne : sdiscard s1 c ≠ [] := by
          intro hnil; rw [hnil] at hc0mem; cases hc0mem
        refine ⟨sdiscard s1 c, ?_, hc0mem⟩
        rw [rs_subs_lookup_self_some m c k0 hs1, if_neg hne]
      · exact ⟨s1, by rw [rs_subs_lookup_ne m c hk]; exact hs1, hcs1⟩
  · intro c0
    rw [rs_active]
    by_cases hcc : c0 = c
    · subst hcc
      rw [rs_ct_lookup_self]
      have h3 := i3 c0
      cases hct : dlookup m.client_topics c0 with
      | none => rw [hct] at h3; simpa using h3
      | some ts1 => rw [hct] at h3; simpa using h3
    · rw [rs_ct_lookup_ne m k hcc]
      exact i3 c0
  · intro k0 s0 hs0
    by_cases hk : k0 = k
    · subst hk
      cases hsk : dlookup m.subscriptions k0 with
      | none => rw [rs_subs_lookup_self_none m c k0 hsk] at hs0; cases hs0
      | some subs =>
          rw [rs_subs_lookup_self_some m c k0 hsk] at hs0
          by_cases he : sdiscard subs c = []
          · rw [if_pos he] at hs0; cases hs0
          · rw [if_neg he, Option.some.injEq] at hs0
            rw [← hs0]; exact he
    · rw [rs_subs_lookup_ne m c hk] at hs0
      exact i4 k0 s0 hs0

theorem unsubscribe_Inv (m : Manager) (c : ClientId) (tt ti : String)
    (hInv : m.Inv) : (m.unsubscribe c tt ti).Inv := by
  unfold Manager.unsubscribe
  cases hc : dlookup m.active_connections c with
  | none => exact hInv
  | some conn => exact rs_Inv m c (tt, ti) hInv

theorem unsubscribe_WF (m : Manager) (c : ClientId) (tt ti : String)
    (hW : m.WF) : (m.unsubscribe c tt ti).WF := by
  unfold Manager.unsubscribe
  cases hc : dlookup m.active_connections c with
  | none => exact hW
  | some conn => exact rs_WF m c (tt, ti) hW

/-- After `disconnect`, a surviving subscriber set of a topic the client
held is the old set with the client discarded (and nonempty). -/
theorem disconnect_subs_some (m : Manager) (c : ClientId) {conn : Conn}
    {ts : List TopicKey} {k0 : TopicKey} {s0 : List ClientId} (hW : m.WF)
    (hc : dlookup m.active_connections c = some conn)
    (hct : dlookup m.client_topics c = some ts) (hk : k0 ∈ ts)
    (hs0 : dlookup (m.disconnect c).subscriptions k0 = some s0) :
    ∃ subs, dlookup m.subscriptions k0 = some subs ∧
      s0 = sdiscard subs c ∧ sdiscard subs c ≠ [] := by
  have h5 := (disconnect_char m c hW hc hct).2.2.2.2 k0 hk
  rw [h5] at hs0
  cases hsk : dlookup m.subscriptions k0 with
  | none => simp [hsk] at hs0
  | some subs =>
      simp only [hsk] at hs0
      by_cases he : sdiscard subs c = []
      · rw [if_pos he] at hs0; cases hs0
      · rw [if_neg he, Option.some.injEq] at hs0
        exact ⟨subs, rfl, hs0.symm, he⟩

/-- After `disconnect`, a topic the client held whose old subscriber set
keeps another client still has that client. -/
theorem disconnect_subs_other (m : Manager) (c : ClientId) {conn : Conn}
    {ts : List TopicKey} {k0 : TopicKey} {subs : List ClientId} (hW : m.WF)
    (hc : dlookup m.active_connections c = some conn)
    (hct : dlookup m.client_topics c = some ts) (hk : k0 ∈ ts)
    (hsk : dlookup m.subscriptions k0 = some subs)
    {c0 : ClientId} (hc0 : c0 ∈ subs) (hcc : c0 ≠ c) :
    dlookup (m.disconnect c).subscriptions k0 = some (sdiscard subs c) ∧
      c0 ∈ sdiscard subs c := by
  have hc0m : c0 ∈ sdiscard subs c := (mem_sdiscard_iff subs c c0).mpr ⟨hc0, hcc⟩
  have hne : sdiscard subs c ≠ [] := by
    intro hnil; rw [hnil] at hc0m; cases hc0m
  have h5 := (disconnect_char m c hW hc hct).2.2.2.2 k0 hk
  refine ⟨?_, hc0m⟩
  rw [h5, hsk]
  show (if sdiscard subs c = [] then none else some (sdiscard subs c))
    = some (sdiscard subs c)
  rw [if_neg hne]

theorem disconnect_Inv (m : Manager) (c : ClientId) (hW : m.WF) (hInv : m.Inv) :
    (m.disconnect c).Inv := by
  cases hc : dlookup m.active_connections c with
  | none => rw [disconnect_of_not_connected m c hc]; exact hInv
  | some conn =>
      obtain ⟨i1, i2, i3, i4⟩ := hInv
      have hsome := i3 c
      rw [hc] at hsome
      obtain ⟨ts, hct⟩ : ∃ ts, dlookup m.client_topics c = some ts := by
        cases h : dlookup m.client_topics c with
        | none => rw [h] at hsome; simp at hsome
        | some ts => exact ⟨ts, rfl⟩
      obtain ⟨ha, hctc, hctne, hsnot, hsmem⟩ := disconnect_char m c hW hc hct
      refine ⟨?_, ?_, ?_, ?_⟩
      · intro k0 s0 hs0 c0 hc0
        by_cases hk : k0 ∈ ts
        · obtain ⟨subs, hsk, hse, hne⟩ :=
            disconnect_subs_some m c hW hc hct hk hs0
          subst hse
          have hmem := (mem_sdiscard_iff subs c c0).mp hc0
          obtain ⟨ts0, hts0, hkk⟩ := i1 k0 subs hsk c0 hmem.1
          exact ⟨ts0, by rw [hctne c0 hmem.2]; exact hts0, hkk⟩
        · rw [hsnot k0 hk] at hs0
          obtain ⟨ts0, hts0, hkk⟩ := i1 k0 s0 hs0 c0 hc0
          have hcc : c0 ≠ c := by
            rintro rfl
            rw [hct] at hts0
            cases hts0
            exact hk hkk
          exact ⟨ts0, by rw [hctne c0 hcc]; exact hts0, hkk⟩
      · intro c0 ts0 hts0 k0 hk0
        by_cases hcc : c0 = c
        · subst hcc; rw [hctc] at hts0; cases hts0
        · rw [hctne c0 hcc] at hts0
          obtain ⟨subs, hsk, hcs⟩ := i2 c0 ts0 hts0 k0 hk0
          by_cases hk : k0 ∈ ts
          · obtain ⟨hnew, hmem⟩ :=
              disconnect_subs_other m c hW hc hct hk hsk hcs hcc
            exact ⟨sdiscard subs c, hnew, hmem⟩
          · exact ⟨subs, by rw [hsnot k0 hk]; exact hsk, hcs⟩
      · intro c0
        by_cases hcc : c0 = c
        · subst hcc
          rw [hctc, ha, dlookup_ddel_self]
          rfl
        · rw [hctne c0 hcc, ha, dlookup_ddel_ne _ hcc]
          exact i3 c0
      · intro k0 s0 hs0
        by_cases hk : k0 ∈ ts
        · obtain ⟨subs, hsk, hse, hne⟩ :=
            disconnect_subs_some m c hW hc hct hk hs0
          rw [hse]; exact hne
        · rw [hsnot k0 hk] at hs0
          exact i4 k0 s0 hs0

/-- `subscribe` on a connected client, as a record update. -/
theorem subscribe_eq (m : Manager) (c : ClientId) (tt ti : String) {conn : Conn}
    (hc : dlookup m.active_connections c = some conn) :
    m.subscribe c tt ti = Except.ok
      { m with
        subscriptions := dset m.subscriptions (tt, ti)
          (sadd (match dlookup m.subscriptions (tt, ti) with
                 | none => []
                 | some s => s) c),
        client_topics := dset m.client_topics c
          (sadd (match dlookup m.client_topics c with
                 | none => []
                 | some ts => ts) (tt, ti)) } := by
  unfold Manager.subscribe
  simp [hc]

theorem subscribe_not_connected (m : Manager) (c : ClientId) (tt ti : String)
    (hc : dlookup m.active_connections c = none) :
    m.subscribe c tt ti = Except.error ("Client " ++ c ++ " is not connected") := by
  unfold Manager.subscribe
  rw [hc]

theorem subscribe_WF (m : Manager) (c : ClientId) (tt ti : String) {m' : Manager}
    (hW : m.WF) (h : m.subscribe c tt ti = Except.ok m') : m'.WF := by
  cases hc : dlookup m.active_connections c with
  | none => rw [subscribe_not_connected m c tt ti hc] at h; cases h
  | some conn =>
      rw [subscribe_eq m c tt ti hc, Except.ok.injEq] at h
      subst h
      refine ⟨hW.1, nodupKeys_dset _ _ _ hW.2.1, nodupKeys_dset _ _ _ hW.2.2.1, ?_, ?_⟩
      · intro p hp
        rcases mem_dset hp with h' | h'
        · exact hW.2.2.2.1 p h'
        · rw [h']
          cases hsub : dlookup m.subscriptions (tt, ti) with
          | none => simpa [hsub] using nodup_sadd [] c List.nodup_nil
          | some s =>
              simpa [hsub] using nodup_sadd s c (hW.2.2.2.1 _ (mem_of_dlookup hsub))
      · intro p hp
        rcases mem_dset hp with h' | h'
        · exact hW.2.2.2.2 p h'
        · rw [h']
          cases hct : dlookup m.client_topics c with
          | none => simpa [hct] using nodup_sadd [] (tt, ti) List.nodup_nil
          | some ts =>
              simpa [hct] using nodup_sadd ts (tt, ti) (hW.2.2.2.2 _ (mem_of_dlookup hct))

theorem subscribe_Inv (m : Manager) (c : ClientId) (tt ti : String) {m' : Manager}
    (hInv : m.Inv) (h : m.subscribe c tt ti = Except.ok m') : m'.Inv := by
  obtain ⟨i1, i2, i3, i4⟩ := hInv
  cases hc : dlookup m.active_connections c with
  | none => rw [subscribe_not_connected m c tt ti hc] at h; cases h
  | some conn =>
      rw [subscribe_eq m c tt ti hc, Except.ok.injEq] at h
      subst h
      refine ⟨?_, ?_, ?_, ?_⟩
      · intro k0 s0 hs0 c0 hc0
        by_cases hk0 : k0 = (tt, ti)
        · subst hk0
          rw [dlookup_dset_self, Option.some.injEq] at hs0
          subst hs0
          by_cases hcc : c0 = c
          · refine ⟨sadd (match dlookup m.client_topics c with
                | none => [] | some ts => ts) (tt, ti), ?_, ?_⟩
            · rw [hcc, dlookup_dset_self]
            · exact (mem_sadd_iff _ (tt, ti) (tt, ti)).mpr (Or.inr rfl)
          · have hc0' : c0 ∈ (match dlookup m.subscriptions (tt, ti) with
                | none => [] | some s => s) := by
              rcases (mem_sadd_iff _ c c0).mp hc0 with h' | h'
              · exact h'
              · exact absurd h' hcc
            cases hsub : dlookup m.subscriptions (tt, ti) with
            | none => rw [hsub] at hc0'; cases hc0'
            | some s =>
                rw [hsub] at hc0'
                obtain ⟨ts', hct', hmem'⟩ := i1 (tt, ti) s hsub c0 hc0'
                exact ⟨ts', by rw [dlookup_dset_ne _ _ hcc]; exact hct', hmem'⟩
        · rw [dlookup_dset_ne _ _ hk0] at hs0
          obtain ⟨ts', hct', hmem'⟩ := i1 k0 s0 hs0 c0 hc0
          by_cases hcc : c0 = c
          · refine ⟨_, by rw [hcc, dlookup_dset_self], ?_⟩
            rw [hcc] at hct'
            rw [hct']
            exact (mem_sadd_iff _ _ k0).mpr (Or.inl hmem')
          · exact ⟨ts', by rw [dlookup_dset_ne _ _ hcc]; exact hct', hmem'⟩
      · intro c0 ts0 hts0 k0 hk0
        by_cases hcc : c0 = c
        · rw [hcc, dlookup_dset_self, Option.some.injEq] at hts0
          subst hts0
          by_cases hk0k : k0 = (tt, ti)
          · refine ⟨_, by rw [hk0k, dlookup_dset_self], ?_⟩
            rw [hcc]
            exact (mem_sadd_iff _ c c).mpr (Or.inr rfl)
          · have hk0' : k0 ∈ (match dlookup m.client_topics c with
                | none => [] | some ts => ts) := by
              rcases (mem_sadd_iff _ _ k0).mp hk0 with h' | h'
              · exact h'
              · exact absurd h' hk0k
            cases hct : dlookup m.client_topics c with
            | none => rw [hct] at hk0'; cases hk0'
            | some ts1 =>
                rw [hct] at hk0'
                obtain ⟨s1, hs1, hcs1⟩ := i2 c ts1 hct k0 hk0'
                refine ⟨s1, by rw [dlookup_dset_ne _ _ hk0k]; exact hs1, ?_⟩
                rw [hcc]
                exact hcs1
        · rw [dlookup_dset_ne _ _ hcc] at hts0
          obtain ⟨s1, hs1, hcs1⟩ := i2 c0 ts0 hts0 k0 hk0
          by_cases hk0k : k0 = (tt, ti)
          · refine ⟨_, by rw [hk0k, dlookup_dset_self], ?_⟩
            rw [hk0k] at hs1
            rw [hs1]
            exact (mem_sadd_iff _ c c0).mpr (Or.inl hcs1)
          · exact ⟨s1, by rw [dlookup_dset_ne _ _ hk0k]; exact hs1, hcs1⟩
      · intro c0
        by_cases hcc : c0 = c
        · rw [hcc, dlookup_dset_self, hc]
          rfl
        · rw [dlookup_dset_ne _ _ hcc]
          exact i3 c0
      · intro k0 s0 hs0
        by_cases hk0 : k0 = (tt, ti)
        · rw [hk0, dlookup_dset_self, Option.some.injEq] at hs0
          rw [← hs0]
          exact sadd_ne_nil _ c
        · rw [dlookup_dset_ne _ _ hk0] at hs0
          exact i4 k0 s0 hs0

theorem connect_WF (m : Manager) (w : Nat) (c : ClientId) (now : Nat)
    (hW : m.WF) : (m.connect w c now).WF := by
  unfold Manager.connect
  cases hc : dlookup m.active_connections c with
  | none =>
      exact ⟨nodupKeys_dset _ _ _ hW.1, hW.2.1, nodupKeys_dset _ _ _ hW.2.2.1,
        hW.2.2.2.1, fun p hp => by
          rcases mem_dset hp with h' | h'
          · exact hW.2.2.2.2 p h'
          · rw [h']; exact List.nodup_nil⟩
  | some conn =>
      have hW0 := disconnect_WF m c hW
      exact ⟨nodupKeys_dset _ _ _ hW0.1, hW0.2.1, nodupKeys_dset _ _ _ hW0.2.2.1,
        hW0.2.2.2.1, fun p hp => by
          rcases mem_dset hp with h' | h'
          · exact hW0.2.2.2.2 p h'
          · rw [h']; exact List.nodup_nil⟩

theorem connect_Inv (m : Manager) (w : Nat) (c : ClientId) (now : Nat)
    (hW : m.WF) (hInv : m.Inv) : (m.connect w c now).Inv := by
  have key : ∀ m0 : Manager, m0.Inv → dlookup m0.active_connections c = none →
      Manager.Inv
        { m0 with
          active_connections := dset m0.active_connections c ⟨w, now⟩,
          client_topics := dset m0.client_topics c [] } := by
    rintro m0 ⟨i1, i2, i3, i4⟩ hnone
    have hctnone : dlookup m0.client_topics c = none := by
      have h0 := i3 c
      rw [hnone] at h0
      cases h : dlookup m0.client_topics c with
      | none => rfl
      | some ts => rw [h] at h0; simp at h0
    refine ⟨?_, ?_, ?_, i4⟩
    · intro k0 s0 hs0 c0 hc0
      obtain ⟨ts', hct', hmem'⟩ := i1 k0 s0 hs0 c0 hc0
      have hne : c0 ≠ c := by
        rintro rfl
        rw [hctnone] at hct'
        cases hct'
      exact ⟨ts', by rw [dlookup_dset_ne _ _ hne]; exact hct', hmem'⟩
    · intro c0 ts0 hts0 k0 hk0
      by_cases hne : c0 = c
      · rw [hne, dlookup_dset_self, Option.some.injEq] at hts0
        rw [← hts0] at hk0
        cases hk0
      · rw [dlookup_dset_ne _ _ hne] at hts0
        exact i2 c0 ts0 hts0 k0 hk0
    · intro c0
      by_cases hne : c0 = c
      · rw [hne, dlookup_dset_self, dlookup_dset_self]
        rfl
      · rw [dlookup_dset_ne _ _ hne, dlookup_dset_ne _ _ hne]
        exact i3 c0
  unfold Manager.connect
  cases hc : dlookup m.active_connections c with
  | none => exact key m hInv hc
  | some conn =>
      exact key (m.disconnect c) (disconnect_Inv m c hW hInv)
        (by rw [disconnect_active]; exact dlookup_ddel_self _ _)

theorem update_activity_WF (m : Manager) (c : ClientId) (now : Nat)
    (hW : m.WF) : (m.update_activity c now).WF := by
  unfold Manager.update_activity
  cases hc : dlookup m.active_connections c with
  | none => exact hW
  | some conn =>
      exact ⟨nodupKeys_dset _ _ _ hW.1, hW.2.1, hW.2.2.1, hW.2.2.2.1, hW.2.2.2.2⟩

theorem update_activity_Inv (m : Manager) (c : ClientId) (now : Nat)
    (hInv : m.Inv) : (m.update_activity c now).Inv := by
  obtain ⟨i1, i2, i3, i4⟩ := hInv
  unfold Manager.update_activity
  cases hc : dlookup m.active_connections c with
  | none => exact ⟨i1, i2, i3, i4⟩
  | some conn =>
      refine ⟨i1, i2, ?_, i4⟩
      intro c0
      show (dlookup m.client_topics c0).isSome
        = (dlookup (dset m.active_connections c ⟨conn.ws, now⟩) c0).isSome
      by_cases hcc : c0 = c
      · rw [hcc, dlookup_dset_self]
        have h3 := i3 c
        rw [hc] at h3
        simpa using h3
      · rw [dlookup_dset_ne _ _ hcc]
        exact i3 c0

/-- Under the consistency invariant there are no stale subscriber entries,
so `get_subscribers` does not mutate the registry. -/
theorem get_subscribers_self (m : Manager) (tt ti : String) (hInv : m.Inv) :
    (m.get_subscribers tt ti).2 = m := by
  obtain ⟨i1, i2, i3, i4⟩ := hInv
  show (match dlookup m.subscriptions (tt, ti) with
    | none => (([] : List Nat), m)
    | some subs =>
        (subs.filterMap
            (fun c => (dlookup m.active_connections c).map (fun conn : Conn => conn.ws)),
          (subs.filter (fun c => decide (dlookup m.active_connections c = none))).foldl
            (fun acc c => acc._remove_subscription c (tt, ti)) m)).2 = m
  cases hs : dlookup m.subscriptions (tt, ti) with
  | none => rfl
  | some subs =>
      have hstale :
          subs.filter (fun c => decide (dlookup m.active_connections c = none)) = [] := by
        rw [List.filter_eq_nil_iff]
        intro c hc
        obtain ⟨ts', hct', -⟩ := i1 _ subs hs c hc
        have h3 := i3 c
        rw [hct'] at h3
        cases ha : dlookup m.active_connections c with
        | none => rw [ha] at h3; simp at h3
        | some conn => simp [ha]
      show (subs.filter (fun c => decide (dlookup m.active_connections c = none))).foldl
        (fun acc c => acc._remove_subscription c (tt, ti)) m = m
      rw [hstale, List.foldl_nil]

/-! ## Lemmas about the sequence allocator and persistence -/

theorem le_sqlMax_of_mem {l : List Int} {x : Int} (h : x ∈ l) : x ≤ sqlMax l := by
  induction l with
  | nil => cases h
  | cons a rest ih =>
      cases rest with
      | nil =>
          rw [List.mem_singleton] at h
          subst h
          exact le_refl _
      | cons b rest2 =>
          rcases List.mem_cons.mp h with h' | h'
          · subst h'
            exact le_max_left _ _
          · exact le_trans (ih h') (le_max_right _ _)

theorem sqlMax_append_singleton (l : List Int) (a : Int) (h : l ≠ []) :
    sqlMax (l ++ [a]) = max (sqlMax l) a := by
  induction l with
  | nil => exact absurd rfl h
  | cons x rest ih =>
      cases rest with
      | nil => simp [sqlMax]
      | cons y rest2 =>
          have h2 := ih (List.cons_ne_nil y rest2)
          calc sqlMax ((x :: y :: rest2) ++ [a])
              = max x (sqlMax ((y :: rest2) ++ [a])) := rfl
            _ = max x (max (sqlMax (y :: rest2)) a) := by rw [h2]
            _ = max (max x (sqlMax (y :: rest2))) a := (max_assoc x _ a).symm
            _ = max (sqlMax (x :: y :: rest2)) a := rfl

theorem idRange_length (n : Nat) : (idRange n).length = n := by
  induction n with
  | zero => rfl
  | succ n ih => simp [idRange, ih]

theorem mem_idRange {n : Nat} {x : Int} (h : x ∈ idRange n) :
    1 ≤ x ∧ x ≤ (n : Int) := by
  induction n with
  | zero => cases h
  | succ n ih =>
      rw [idRange, List.mem_append] at h
      rcases h with h' | h'
      · obtain ⟨h1, h2⟩ := ih h'
        refine ⟨h1, ?_⟩
        push_cast
        omega
      · rw [List.mem_singleton] at h'
        subst h'
        constructor <;> (push_cast; omega)

theorem sqlMax_idRange (n : Nat) : sqlMax (idRange n) = (n : Int) := by
  induction n with
  | zero => rfl
  | succ n ih =>
      by_cases h : idRange n = []
      · have hn : n = 0 := by
          have := idRange_length n
          rw [h] at this
          simpa using this.symm
        subst hn
        rfl
      · rw [idRange, sqlMax_append_singleton _ _ h, ih]
        have : (n : Int) ≤ (n : Int) + 1 := by omega
        rw [max_eq_right this]
        push_cast
        ring

theorem scopeIds_append (db : List Message) (r : Message) (s : Scope) :
    scopeIds (db ++ [r]) s
      = scopeIds db s ++ (if r.scope = s then [r.message_id] else []) := by
  unfold scopeIds
  rw [List.filter_append]
  by_cases h : r.scope = s <;> simp [h]

/-- The auto-allocated `message_id` can never collide with a row already in
its scope, so a `persist_message` call with no injected storage fault
commits exactly one new row carrying `COALESCE(MAX(message_id), 0) + 1`. -/
theorem persist_message_eq (db : List Message) (now : Nat) (md : MessageCreate) :
    persist_message db now md Fault.noFault =
      (db ++ [{ topic_type := md.topic_type, topic_id := md.topic_id,
                message_type := md.message_type,
                message_id := generate_message_id db md.scope,
                sender_type := md.sender_type, sender_id := md.sender_id,
                content_type := md.content_type, content := md.content,
                created_at := now }],
        Except.ok
          { topic_type := md.topic_type, topic_id := md.topic_id,
            message_type := md.message_type,
            message_id := generate_message_id db md.scope,
            sender_type := md.sender_type, sender_id := md.sender_id,
            content_type := md.content_type, content := md.content,
            created_at := now }) := by
  unfold persist_message persistWith
  simp only []
  rw [if_neg ?_, if_neg (by decide), if_neg (by decide)]
  rw [List.any_eq_true]
  rintro ⟨r, hr, hp⟩
  rw [decide_eq_true_eq] at hp
  obtain ⟨hsc, hid⟩ := hp
  have hmem : r.message_id ∈ scopeIds db md.scope := by
    refine List.mem_map_of_mem _ (List.mem_filter.mpr ⟨hr, ?_⟩)
    rw [decide_eq_true_eq]
    simp only [Message.scope, MessageCreate.scope] at hsc ⊢
    exact hsc
  have hle := le_sqlMax_of_mem hmem
  rw [hid] at hle
  unfold generate_message_id at hle
  omega

/-- Case analysis of a `persistWith` call: the commit step either raises
(duplicate primary key, or the injected fault striking the commit) with
the table rolled back unchanged, or it durably appends exactly one new
row; in the latter case the call returns that row unless the fault strikes
the post-commit refresh, in which case an error is raised while the
committed row stays stored. -/
theorem persistWith_shape (db : List Message) (now : Nat) (md : MessageCreate)
    (explicit : Option Int) (fault : Fault) :
    persistWith db now md explicit fault
        = (db, Except.error "IntegrityError: duplicate primary key") ∨
    (fault = Fault.commitFault ∧
      persistWith db now md explicit fault
        = (db, Except.error "unexpected error during message persistence") ∧
      ∀ r0 ∈ db, ¬(r0.scope = md.scope ∧ r0.message_id = (match explicit with
        | some i => i
        | none => generate_message_id db md.scope))) ∨
    ∃ r : Message,
      (persistWith db now md explicit fault).1 = db ++ [r] ∧
      ((persistWith db now md explicit fault).2 = Except.ok r ∧
         fault = Fault.noFault ∨
       (persistWith db now md explicit fault).2
           = Except.error "unexpected error during message persistence" ∧
         fault = Fault.refreshFault) ∧
      r.created_at = now ∧ r.scope = md.scope ∧
      r.message_id = (match explicit with
        | some i => i
        | none => generate_message_id db md.scope) ∧
      ∀ r0 ∈ db, ¬(r0.scope = r.scope ∧ r0.message_id = r.message_id) := by
  cases explicit with
  | none =>
      unfold persistWith
      simp only []
      split
      · left; rfl
      · rename_i hdup
        split
        · rename_i hc
          right; left
          refine ⟨hc, rfl, ?_⟩
          intro r0 hr0 hcon
          apply hdup
          rw [List.any_eq_true]
          exact ⟨r0, hr0, by rw [decide_eq_true_eq]; exact hcon⟩
        · rename_i hc
          split
          · rename_i hrf
            right; right
            refine ⟨_, rfl, Or.inr ⟨rfl, hrf⟩, rfl, ?_, rfl, ?_⟩
            · simp [Message.scope, MessageCreate.scope]
            · intro r0 hr0 hcon
              apply hdup
              rw [List.any_eq_true]
              exact ⟨r0, hr0, by rw [decide_eq_true_eq]; exact hcon⟩
          · rename_i hrf
            right; right
            refine ⟨_, rfl, Or.inl ⟨rfl, ?_⟩, rfl, ?_, rfl, ?_⟩
            · cases fault with
              | noFault => rfl
              | commitFault => exact absurd rfl hc
              | refreshFault => exact absurd rfl hrf
            · simp [Message.scope, MessageCreate.scope]
            · intro r0 hr0 hcon
              apply hdup
              rw [List.any_eq_true]
              exact ⟨r0, hr0, by rw [decide_eq_true_eq]; exact hcon⟩
  | some i =>
      unfold persistWith
      simp only []
      split
      · left; rfl
      · rename_i hdup
        split
        · rename_i hc
          right; left
          refine ⟨hc, rfl, ?_⟩
          intro r0 hr0 hcon
          apply hdup
          rw [List.any_eq_true]
          exact ⟨r0, hr0, by rw [decide_eq_true_eq]; exact hcon⟩
        · rename_i hc
          split
          · rename_i hrf
            right; right
            refine ⟨_, rfl, Or.inr ⟨rfl, hrf⟩, rfl, ?_, rfl, ?_⟩
            · simp [Message.scope, MessageCreate.scope]
            · intro r0 hr0 hcon
              apply hdup
              rw [List.any_eq_true]
              exact ⟨r0, hr0, by rw [decide_eq_true_eq]; exact hcon⟩
          · rename_i hrf
            right; right
            refine ⟨_, rfl, Or.inl ⟨rfl, ?_⟩, rfl, ?_, rfl, ?_⟩
            · cases fault with
              | noFault => rfl
              | commitFault => exact absurd rfl hc
              | refreshFault => exact absurd rfl hrf
            · simp [Message.scope, MessageCreate.scope]
            · intro r0 hr0 hcon
              apply hdup
              rw [List.any_eq_true]
              exact ⟨r0, hr0, by rw [decide_eq_true_eq]; exact hcon⟩

/-- Iterated `persist_message` from a scope-empty table: the assigned
sequence numbers are exactly `1..n` and the scope's rows carry exactly
those ids, in order. -/
theorem persistN_spec (db : List Message) (now : Nat) (md : MessageCreate)
    (hempty : scopeIds db md.scope = []) (n : Nat) :
    (persistN db now md n).2 = idRange n ∧
      scopeIds (persistN db now md n).1 md.scope = idRange n := by
  induction n with
  | zero => exact ⟨rfl, hempty⟩
  | succ n ih =>
      have hgen : generate_message_id (persistN db now md n).1 md.scope
          = (n : Int) + 1 := by
        unfold generate_message_id
        rw [ih.2, sqlMax_idRange]
      have heq := persist_message_eq (persistN db now md n).1 now md
      rw [hgen] at heq
      have hstep : persistN db now md (Nat.succ n)
          = ((persistN db now md n).1 ++
              [{ topic_type := md.topic_type, topic_id := md.topic_id,
                 message_type := md.message_type,
                 message_id := (n : Int) + 1,
                 sender_type := md.sender_type, sender_id := md.sender_id,
                 content_type := md.content_type, content := md.content,
                 created_at := now }],
             (persistN db now md n).2 ++ [(n : Int) + 1]) := by
        rw [persistN, heq]
      constructor
      · rw [hstep]
        dsimp only
        rw [ih.1, idRange]
      · rw [hstep]
        dsimp only
        rw [scopeIds_append, ih.2, idRange]
        rw [if_pos (by simp [Message.scope, MessageCreate.scope])]

/-! ## Lemmas about the broadcast publisher -/

theorem publishStep_snd (send : Nat → SendOutcome)
    (acc : Manager × List (Nat × SendOutcome)) (w : Nat) :
    (publishStep send acc w).2 = acc.2 ++ [(w, send w)] := by
  unfold publishStep
  cases send w <;> rfl

theorem publish_fold_log (send : Nat → SendOutcome) (l : List Nat) :
    ∀ acc : Manager × List (Nat × SendOutcome),
      (l.foldl (publishStep send) acc).2 = acc.2 ++ l.map (fun w => (w, send w)) := by
  induction l with
  | nil => intro acc; simp
  | cons w l ih =>
      intro acc
      rw [List.foldl_cons, ih, publishStep_snd]
      simp

theorem publishStep_fst_ok (send : Nat → SendOutcome)
    (acc : Manager × List (Nat × SendOutcome)) (w : Nat)
    (hw : send w = SendOutcome.ok) :
    (publishStep send acc w).1 = acc.1 := by
  unfold publishStep
  rw [hw]

theorem publish_fold_fst_ok (send : Nat → SendOutcome) (l : List Nat) :
    ∀ acc : Manager × List (Nat × SendOutcome),
      (∀ w ∈ l, send w = SendOutcome.ok) →
      (l.foldl (publishStep send) acc).1 = acc.1 := by
  induction l with
  | nil => intro acc _; rfl
  | cons w l ih =>
      intro acc hok
      rw [List.foldl_cons]
      have hstep : publishStep send acc w = (acc.1, acc.2 ++ [(w, SendOutcome.ok)]) := by
        unfold publishStep
        rw [hok w (List.mem_cons_self w l)]
      rw [hstep]
      exact ih _ (fun w' hw' => hok w' (List.mem_cons_of_mem w hw'))

theorem publishStep_fst_disconnected (send : Nat → SendOutcome)
    (acc : Manager × List (Nat × SendOutcome)) (w : Nat) {cid : ClientId}
    (hw : send w = SendOutcome.disconnected)
    (hcid : acc.1.get_client_id w = some cid) :
    (publishStep send acc w).1 = acc.1.disconnect cid := by
  unfold publishStep
  rw [hw]
  show (match acc.1.get_client_id w with
    | some cid => acc.1.disconnect cid
    | none => acc.1) = acc.1.disconnect cid
  rw [hcid]

theorem find_map_fst (w : Nat) (cA : ClientId) :
    ∀ l : List (ClientId × Conn),
      (∃ p ∈ l, p.2.ws = w) →
      (∀ p ∈ l, p.2.ws = w → p.1 = cA) →
      (l.find? (fun p => decide (p.2.ws = w))).map Prod.fst = some cA := by
  intro l
  induction l with
  | nil => rintro ⟨p, hp, -⟩ _; cases hp
  | cons q l ih =>
      intro hex huniq
      by_cases hq : q.2.ws = w
      · rw [List.find?_cons_of_pos _ (by simpa using hq)]
        rw [Option.map_some']
        rw [huniq q (List.mem_cons_self q l) hq]
      · rw [List.find?_cons_of_neg _ (by simpa using hq)]
        apply ih
        · obtain ⟨p, hp, hpw⟩ := hex
          rcases List.mem_cons.mp hp with h' | h'
          · exact absurd (h' ▸ hpw) hq
          · exact ⟨p, h', hpw⟩
        · exact fun p hp hpw => huniq p (List.mem_cons_of_mem q hp) hpw

theorem get_client_id_unique (m : Manager) (w : Nat) (cA : ClientId)
    {connA : Conn} (hA : dlookup m.active_connections cA = some connA)
    (hwA : connA.ws = w)
    (huniq : ∀ p ∈ m.active_connections, p.2.ws = w → p.1 = cA) :
    m.get_client_id w = some cA := by
  unfold Manager.get_client_id
  exact find_map_fst w cA m.active_connections
    ⟨(cA, connA), mem_of_dlookup hA, hwA⟩ huniq

theorem count_one_split {l : List Nat} {a : Nat} (h : l.count a = 1) :
    ∃ l1 l2, l = l1 ++ a :: l2 ∧ a ∉ l1 ∧ a ∉ l2 := by
  have hmem : a ∈ l := by
    rw [← List.count_pos_iff]
    omega
  obtain ⟨l1, l2, rfl⟩ := List.append_of_mem hmem
  rw [List.count_append, List.count_cons_self] at h
  have h1 : l1.count a = 0 := by omega
  have h2 : l2.count a = 0 := by omega
  exact ⟨l1, l2, rfl, List.count_eq_zero.mp h1, List.count_eq_zero.mp h2⟩

/-- Properties of the websocket list resolved for a topic whose subscriber
set consists of the two active clients `A` and `B`. -/
theorem wss_props (m : Manager) (A B : ClientId) (connA connB : Conn)
    (hA : dlookup m.active_connections A = some connA)
    (hB : dlookup m.active_connections B = some connB)
    (hAB : A ≠ B) (hwAB : connA.ws ≠ connB.ws) :
    ∀ subs : List ClientId, (∀ c0 ∈ subs, c0 = A ∨ c0 = B) →
      ((subs.filterMap
          (fun c => (dlookup m.active_connections c).map (fun x : Conn => x.ws))).count connA.ws
        = subs.count A) ∧
      (∀ w ∈ subs.filterMap
          (fun c => (dlookup m.active_connections c).map (fun x : Conn => x.ws)),
        w = connA.ws ∨ w = connB.ws) ∧
      (B ∈ subs → connB.ws ∈ subs.filterMap
          (fun c => (dlookup m.active_connections c).map (fun x : Conn => x.ws))) := by
  intro subs
  induction subs with
  | nil =>
      intro _
      exact ⟨by simp, by simp, by simp⟩
  | cons c0 rest ih =>
      intro hall
      obtain ⟨ih1, ih2, ih3⟩ := ih (fun c hc => hall c (List.mem_cons_of_mem c0 hc))
      rcases hall c0 (List.mem_cons_self c0 rest) with rfl | rfl
      · simp only [List.filterMap_cons, hA, Option.map_some']
        refine ⟨?_, ?_, ?_⟩
        · rw [List.count_cons_self, List.count_cons_self, ih1]
        · intro w hw
          rcases List.mem_cons.mp hw with h' | h'
          · exact Or.inl h'
          · exact ih2 w h'
        · intro hBmem
          rcases List.mem_cons.mp hBmem with h' | h'
          · exact absurd h'.symm hAB
          · exact List.mem_cons_of_mem _ (ih3 h')
      · simp only [List.filterMap_cons, hB, Option.map_some']
        refine ⟨?_, ?_, ?_⟩
        · rw [List.count_cons_of_ne hwAB, List.count_cons_of_ne hAB, ih1]
        · intro w hw
          rcases List.mem_cons.mp hw with h' | h'
          · exact Or.inr h'
          · exact ih2 w h'
        · intro hBmem
          exact List.mem_cons_self _ _

/-! ## Claim theorems -/

/-- C1: for every scope key, persisting a message without an explicit
sequence assigns it `(max sequence already persisted in the scope) + 1`
(strictly above every existing id, and `1` for an empty scope), and `n`
successive successful persists into one scope yield the sequences exactly
`1..n` with no gaps or repeats, both as the returned ids and as the
scope's stored rows. -/
theorem persist_sequence_allocation (db : List Message) (now : Nat)
    (md : MessageCreate) (n : Nat) :
    (∀ db' r, persist_message db now md Fault.noFault = (db', Except.ok r) →
      r.message_id = generate_message_id db md.scope ∧
      ∀ x ∈ scopeIds db md.scope, x < r.message_id) ∧
    (scopeIds db md.scope = [] →
      ∃ r, (persist_message db now md Fault.noFault).2 = Except.ok r ∧
        r.message_id = 1) ∧
    (scopeIds db md.scope = [] →
      (persistN db now md n).2 = idRange n ∧
      scopeIds (persistN db now md n).1 md.scope = idRange n) := by
  have heq := persist_message_eq db now md
  refine ⟨?_, ?_, fun hempty => persistN_spec db now md hempty n⟩
  · intro db' r h
    rw [heq, Prod.mk.injEq, Except.ok.injEq] at h
    rw [← h.2]
    constructor
    · rfl
    · intro x hx
      have := le_sqlMax_of_mem hx
      show x < generate_message_id db md.scope
      unfold generate_message_id
      omega
  · intro hempty
    rw [heq]
    refine ⟨_, rfl, ?_⟩
    show generate_message_id db md.scope = 1
    unfold generate_message_id
    rw [hempty]
    rfl

theorem persist_sequence_allocation_witness :
    scopeIds []
        (MessageCreate.scope
          ⟨"project", "123", "status_update", "agent", "a1", "text", "hi"⟩) = [] ∧
    (persistN [] 0
        ⟨"project", "123", "status_update", "agent", "a1", "text", "hi"⟩ 3).2
      = idRange 3 ∧
    scopeIds
        (persistN [] 0
          ⟨"project", "123", "status_update", "agent", "a1", "text", "hi"⟩ 3).1
        (MessageCreate.scope
          ⟨"project", "123", "status_update", "agent", "a1", "text", "hi"⟩)
      = idRange 3 :=
  ⟨rfl,
   (persist_sequence_allocation [] 0
     ⟨"project", "123", "status_update", "agent", "a1", "text", "hi"⟩ 3).2.2 rfl⟩

/-- C8: sequence numbering in one scope is unaffected by a persist into any
different scope key — whether the persist succeeds, rolls back, or commits
with a failing post-commit refresh: the other scope's stored ids and its
next allocated sequence are unchanged, and an empty scope still allocates
`1` afterwards. -/
theorem persist_scope_isolation (db : List Message) (now : Nat)
    (md : MessageCreate) (fault : Fault) (s' : Scope) (h : s' ≠ md.scope) :
    scopeIds (persist_message db now md fault).1 s' = scopeIds db s' ∧
    generate_message_id (persist_message db now md fault).1 s'
      = generate_message_id db s' ∧
    (scopeIds db s' = [] →
      generate_message_id (persist_message db now md fault).1 s' = 1) := by
  have key : scopeIds (persist_message db now md fault).1 s' = scopeIds db s' := by
    unfold persist_message
    rcases persistWith_shape db now md none fault with
      hs | ⟨-, hs, -⟩ | ⟨r, h1, -, -, hscope, -, -⟩
    · rw [hs]
    · rw [hs]
    · rw [h1]
      rw [scopeIds_append, if_neg (fun hh => h (hh.symm.trans hscope)), List.append_nil]
  refine ⟨key, ?_, ?_⟩
  · unfold generate_message_id
    rw [key]
  · intro hempty
    unfold generate_message_id
    rw [key, hempty]
    rfl

theorem persist_scope_isolation_witness :
    (("task", "123", "status_update") : Scope)
        ≠ MessageCreate.scope
            ⟨"project", "123", "status_update", "agent", "a1", "text", "hi"⟩ ∧
    generate_message_id
        (persist_message [] 0
          ⟨"project", "123", "status_update", "agent", "a1", "text", "hi"⟩
          Fault.refreshFault).1
        ("task", "123", "status_update") = 1 :=
  ⟨by decide,
   (persist_scope_isolation [] 0
      ⟨"project", "123", "status_update", "agent", "a1", "text", "hi"⟩
      Fault.refreshFault
      ("task", "123", "status_update") (by decide)).2.2 rfl⟩

/-- C2 counterexample: persistence is not all-or-nothing.  With the stored
table empty, a storage error striking the post-commit
`db_session.refresh` (line 48 of `message_persistence.py`) makes
`persist_message` raise a persistence error even though the commit has
already succeeded — the handler's rollback is a no-op against the
committed transaction, so the row remains durably stored: the failing
call did change the set of stored messages. -/
theorem persist_atomicity_cex :
    (persist_message [] 0
        ⟨"project", "123", "status_update", "agent", "a1", "text", "hi"⟩
        Fault.refreshFault).2
      = Except.error "unexpected error during message persistence" ∧
    (persist_message [] 0
        ⟨"project", "123", "status_update", "agent", "a1", "text", "hi"⟩
        Fault.refreshFault).1
      = [⟨"project", "123", "status_update", 1, "agent", "a1", "text", "hi", 0⟩] :=
  ⟨rfl, rfl⟩

/-- C2 (amended): persistence failures raised at or before commit — a
duplicate (scope, sequence) primary key, or any other storage error
striking the commit — roll the transaction back, leaving the stored table
unchanged, and surface as a persistence error.  A storage error striking
the post-commit refresh also surfaces as a persistence error, but the
committed row (with `message_id` and `created_at` populated, in the
request's scope) remains stored and visible to subsequent scope queries.
A successful call appends exactly the new row, visible to subsequent
scope queries; every injected fault surfaces as an error; and a call
whose explicit id duplicates a stored row of the scope always fails with
the table unchanged. -/
theorem persist_atomicity (db : List Message) (now : Nat) (md : MessageCreate)
    (explicit : Option Int) (fault : Fault) :
    (∀ e, (persistWith db now md explicit fault).2 = Except.error e →
      (persistWith db now md explicit fault).1 = db ∨
      (fault = Fault.refreshFault ∧
        ∃ r : Message,
          (persistWith db now md explicit fault).1 = db ++ [r] ∧
          r.created_at = now ∧ r.scope = md.scope ∧
          r.message_id = (match explicit with
            | some i => i
            | none => generate_message_id db md.scope) ∧
          r ∈ ((persistWith db now md explicit fault).1).filter
              (fun x => decide (x.scope = md.scope)))) ∧
    (∀ db' r, persistWith db now md explicit fault = (db', Except.ok r) →
      db' = db ++ [r] ∧ r.created_at = now ∧
      r.message_id = (match explicit with
        | some i => i
        | none => generate_message_id db md.scope) ∧
      r ∈ db'.filter (fun x => decide (x.scope = md.scope))) ∧
    (fault ≠ Fault.noFault →
      ∃ e, (persistWith db now md explicit fault).2 = Except.error e) ∧
    (∀ i, explicit = some i →
      (∃ r0 ∈ db, r0.scope = md.scope ∧ r0.message_id = i) →
      (persistWith db now md explicit fault).2
          = Except.error "IntegrityError: duplicate primary key" ∧
      (persistWith db now md explicit fault).1 = db) := by
  rcases persistWith_shape db now md explicit fault with
    hs | ⟨hcf, hs, hnodup2⟩ | ⟨r, h1, hres, hcr, hscope, hid, hnodup⟩
  · refine ⟨fun e h => Or.inl (by rw [hs]), ?_, fun _ => ⟨_, by rw [hs]⟩,
      fun i _ _ => by rw [hs]; exact ⟨rfl, rfl⟩⟩
    intro db' r h
    rw [hs, Prod.mk.injEq] at h
    cases h.2
  · refine ⟨fun e h => Or.inl (by rw [hs]), ?_, fun _ => ⟨_, by rw [hs]⟩, ?_⟩
    · intro db' r h
      rw [hs, Prod.mk.injEq] at h
      cases h.2
    · intro i hexp hdup
      exfalso
      subst hexp
      obtain ⟨r0, hr0, hr0s, hr0i⟩ := hdup
      exact hnodup2 r0 hr0 ⟨hr0s, hr0i⟩
  · refine ⟨?_, ?_, ?_, ?_⟩
    · intro e h
      rcases hres with ⟨hok, -⟩ | ⟨herr, hrf⟩
      · rw [hok] at h
        exact Except.noConfusion h
      · refine Or.inr ⟨hrf, r, h1, hcr, hscope, hid, ?_⟩
        rw [h1]
        refine List.mem_filter.mpr ⟨?_, ?_⟩
        · exact List.mem_append_right db (List.mem_singleton_self r)
        · rw [decide_eq_true_eq]
          exact hscope
    · intro db' r' h
      have h2 : (persistWith db now md explicit fault).2 = Except.ok r' := by
        rw [h]
      have hdb : (persistWith db now md explicit fault).1 = db' := by
        rw [h]
      rcases hres with ⟨hok, -⟩ | ⟨herr, -⟩
      · rw [hok] at h2
        injection h2 with hrr
        subst hrr
        have hdb' : db' = db ++ [r] := by rw [← hdb, h1]
        refine ⟨hdb', hcr, hid, ?_⟩
        rw [hdb']
        refine List.mem_filter.mpr ⟨?_, ?_⟩
        · exact List.mem_append_right db (List.mem_singleton_self r)
        · rw [decide_eq_true_eq]
          exact hscope
      · rw [herr] at h2
        exact Except.noConfusion h2
    · intro hnf
      rcases hres with ⟨-, hfn⟩ | ⟨herr, -⟩
      · exact absurd hfn hnf
      · exact ⟨_, herr⟩
    · intro i hexp hdup
      exfalso
      subst hexp
      obtain ⟨r0, hr0, hr0s, hr0i⟩ := hdup
      have hid' : r.message_id = i := hid
      exact hnodup r0 hr0 ⟨hr0s.trans hscope.symm, hr0i.trans hid'.symm⟩

theorem persist_atomicity_witness :
    (persistWith [⟨"p", "1", "t", 1, "s", "s1", "c", "x", 0⟩] 5
        ⟨"p", "1", "t", "s", "s1", "c", "y"⟩ (some 1) Fault.noFault).2
      = Except.error "IntegrityError: duplicate primary key" ∧
    (persistWith [⟨"p", "1", "t", 1, "s", "s1", "c", "x", 0⟩] 5
        ⟨"p", "1", "t", "s", "s1", "c", "y"⟩ (some 1) Fault.noFault).1
      = [⟨"p", "1", "t", 1, "s", "s1", "c", "x", 0⟩] :=
  (persist_atomicity [⟨"p", "1", "t", 1, "s", "s1", "c", "x", 0⟩] 5
      ⟨"p", "1", "t", "s", "s1", "c", "y"⟩ (some 1) Fault.noFault).2.2.2 1 rfl
      ⟨⟨"p", "1", "t", 1, "s", "s1", "c", "x", 0⟩, List.mem_singleton_self _, rfl, rfl⟩

theorem Manager_init_Inv : Manager.init.Inv := by
  refine ⟨?_, ?_, ?_, ?_⟩
  · intro k s h
    simp [Manager.init, dlookup] at h
  · intro c ts h
    simp [Manager.init, dlookup] at h
  · intro c
    rfl
  · intro k s h
    simp [Manager.init, dlookup] at h

/-- C5: disconnecting a registered connection removes it, leaves it in no
topic's subscriber set, deletes every topic entry whose subscriber set
became empty (no empty entries remain), and drops the total subscription
count by exactly the number of topics the connection held; disconnecting
an unknown id is a no-op. -/
theorem disconnect_cascade (m : Manager) (c : ClientId)
    (hW : m.WF) (hInv : m.Inv) :
    (∀ conn, dlookup m.active_connections c = some conn →
      dlookup (m.disconnect c).active_connections c = none ∧
      (∀ k s, dlookup (m.disconnect c).subscriptions k = some s → c ∉ s) ∧
      (∀ k s, dlookup (m.disconnect c).subscriptions k = some s → s ≠ []) ∧
      (m.disconnect c).get_subscription_count
          + (m.get_client_subscriptions c).length
        = m.get_subscription_count) ∧
    (dlookup m.active_connections c = none → m.disconnect c = m) := by
  constructor
  · intro conn hc
    have hsome := hInv.2.2.1 c
    rw [hc] at hsome
    obtain ⟨ts, hct⟩ : ∃ ts, dlookup m.client_topics c = some ts := by
      cases h0 : dlookup m.client_topics c with
      | none => rw [h0] at hsome; simp at hsome
      | some ts => exact ⟨ts, rfl⟩
    obtain ⟨ha, hctc, hctne, hsnot, hsmem⟩ := disconnect_char m c hW hc hct
    refine ⟨?_, ?_, ?_, ?_⟩
    · rw [disconnect_active]
      exact dlookup_ddel_self _ _
    · intro k s hks hcs
      by_cases hk : k ∈ ts
      · obtain ⟨subs, -, hse, -⟩ := disconnect_subs_some m c hW hc hct hk hks
        rw [hse] at hcs
        exact not_mem_sdiscard_self subs c hcs
      · rw [hsnot k hk] at hks
        obtain ⟨ts'', hct'', hkts''⟩ := hInv.1 k s hks c hcs
        rw [hct, Option.some.injEq] at hct''
        subst hct''
        exact hk hkts''
    · exact (disconnect_Inv m c hW hInv).2.2.2
    · have hcount := disconnect_sub_count m c hW hInv hc hct
      unfold Manager.get_client_subscriptions
      rw [hct]
      exact hcount
  · exact disconnect_of_not_connected m c

theorem disconnect_cascade_witness :
    dlookup (Manager.disconnect
        ⟨[("a", ⟨1, 0⟩)], [(("p", "1"), ["a"])], [("a", [("p", "1")])]⟩
        "a").active_connections "a" = none ∧
    (Manager.disconnect
        ⟨[("a", ⟨1, 0⟩)], [(("p", "1"), ["a"])], [("a", [("p", "1")])]⟩
        "a").get_subscription_count
      + (Manager.get_client_subscriptions
          ⟨[("a", ⟨1, 0⟩)], [(("p", "1"), ["a"])], [("a", [("p", "1")])]⟩
          "a").length
      = (Manager.get_subscription_count
          ⟨[("a", ⟨1, 0⟩)], [(("p", "1"), ["a"])], [("a", [("p", "1")])]⟩) := by
  have hInvM1 : Manager.Inv ⟨[("a", ⟨1, 0⟩)], [], [("a", [])]⟩ := by
    have h1 : Manager.init.connect 1 "a" 0
        = ⟨[("a", ⟨1, 0⟩)], [], [("a", [])]⟩ := rfl
    exact h1 ▸ connect_Inv Manager.init 1 "a" 0 (by decide) Manager_init_Inv
  have hInvM2 : Manager.Inv
      ⟨[("a", ⟨1, 0⟩)], [(("p", "1"), ["a"])], [("a", [("p", "1")])]⟩ :=
    subscribe_Inv ⟨[("a", ⟨1, 0⟩)], [], [("a", [])]⟩ "a" "p" "1" hInvM1 rfl
  have h := (disconnect_cascade
    ⟨[("a", ⟨1, 0⟩)], [(("p", "1"), ["a"])], [("a", [("p", "1")])]⟩
    "a" (by decide) hInvM2).1 ⟨1, 0⟩ rfl
  exact ⟨h.1, h.2.2.2⟩

/-- C10: every registry operation (`connect`, `update_activity`,
`disconnect`, `subscribe`, `unsubscribe`, `get_subscribers`) preserves the
registry consistency invariant: both subscription indexes mirror each
other, the client-to-topics key set equals the connection-table key set,
and no topic key maps to an empty subscriber set. -/
theorem registry_ops_preserve_Inv (m : Manager) (hW : m.WF) (hInv : m.Inv)
    (w now : Nat) (c : ClientId) (tt ti : String) :
    (m.connect w c now).Inv ∧
    (m.update_activity c now).Inv ∧
    (m.disconnect c).Inv ∧
    (∀ m', m.subscribe c tt ti = Except.ok m' → m'.Inv) ∧
    (m.unsubscribe c tt ti).Inv ∧
    ((m.get_subscribers tt ti).2).Inv :=
  ⟨connect_Inv m w c now hW hInv, update_activity_Inv m c now hInv,
   disconnect_Inv m c hW hInv, fun _ h => subscribe_Inv m c tt ti hInv h,
   unsubscribe_Inv m c tt ti hInv,
   by rw [get_subscribers_self m tt ti hInv]; exact hInv⟩

theorem registry_ops_preserve_Inv_witness :
    (Manager.init.connect 1 "a" 0).Inv ∧
    ((Manager.init.get_subscribers "p" "1").2).Inv :=
  ⟨(registry_ops_preserve_Inv Manager.init (by decide) Manager_init_Inv
      1 0 "a" "p" "1").1,
   (registry_ops_preserve_Inv Manager.init (by decide) Manager_init_Inv
      1 0 "a" "p" "1").2.2.2.2.2⟩

/-- C6: when a subscriber id in a topic's index has no entry in the
connection table, `get_subscribers` does not return it: every returned
channel belongs to a currently registered subscribed connection, and the
stale id is removed from both subscription indexes as a side effect. -/
theorem get_subscribers_stale_heal (m : Manager) (tt ti : String)
    {subs : List ClientId} {cstale : ClientId}
    (hs : dlookup m.subscriptions (tt, ti) = some subs)
    (hmem : cstale ∈ subs)
    (hstale : dlookup m.active_connections cstale = none) :
    (∀ w ∈ (m.get_subscribers tt ti).1,
      ∃ c conn, dlookup m.active_connections c = some conn ∧ conn.ws = w ∧ c ∈ subs) ∧
    (∀ s2, dlookup ((m.get_subscribers tt ti).2).subscriptions (tt, ti) = some s2 →
      cstale ∉ s2) ∧
    (∀ ts2, dlookup ((m.get_subscribers tt ti).2).client_topics cstale = some ts2 →
      (tt, ti) ∉ ts2) := by
  have hgs : m.get_subscribers tt ti
      = (subs.filterMap
          (fun c => (dlookup m.active_connections c).map (fun x : Conn => x.ws)),
        (subs.filter (fun c => decide (dlookup m.active_connections c = none))).foldl
          (fun acc c => acc._remove_subscription c (tt, ti)) m) := by
    show (match dlookup m.subscriptions (tt, ti) with
      | none => (([] : List Nat), m)
      | some subs =>
          (subs.filterMap
            (fun c => (dlookup m.active_connections c).map (fun x : Conn => x.ws)),
           (subs.filter (fun c => decide (dlookup m.active_connections c = none))).foldl
             (fun acc c => acc._remove_subscription c (tt, ti)) m)) = _
    rw [hs]
  have hstmem : cstale ∈ subs.filter
      (fun c => decide (dlookup m.active_connections c = none)) :=
    List.mem_filter.mpr ⟨hmem, by rw [decide_eq_true_eq]; exact hstale⟩
  have hfold := foldrs_stale
    (subs.filter (fun c => decide (dlookup m.active_connections c = none)))
    (tt, ti) cstale hstmem m
  refine ⟨?_, ?_, ?_⟩
  · intro w hw
    rw [hgs] at hw
    obtain ⟨c, hc, hcw⟩ := List.mem_filterMap.mp hw
    cases hca : dlookup m.active_connections c with
    | none => rw [hca] at hcw; cases hcw
    | some conn =>
        rw [hca, Option.map_some', Option.some.injEq] at hcw
        exact ⟨c, conn, hca, hcw, hc⟩
  · intro s2 hs2
    rw [hgs] at hs2
    exact hfold.1 s2 hs2
  · intro ts2 hts2
    rw [hgs] at hts2
    exact hfold.2 ts2 hts2

theorem get_subscribers_stale_heal_witness :
    (Manager.get_subscribers
        ⟨[("b", ⟨2, 0⟩)], [(("p", "1"), ["a", "b"])], [("b", [("p", "1")])]⟩
        "p" "1").1 = [2] ∧
    ("a" : ClientId) ∉ (["b"] : List ClientId) :=
  ⟨by decide,
   (@get_subscribers_stale_heal
      ⟨[("b", ⟨2, 0⟩)], [(("p", "1"), ["a", "b"])], [("b", [("p", "1")])]⟩
      "p" "1" ["a", "b"] "a" rfl (by decide) rfl).2.1 ["b"] (by decide)⟩

theorem subscribe_twice_eq (m : Manager) (c : ClientId) (tt ti : String)
    {conn : Conn} (hc : dlookup m.active_connections c = some conn)
    {m1 : Manager} (h : m.subscribe c tt ti = Except.ok m1) :
    m1.subscribe c tt ti = Except.ok m1 := by
  rw [subscribe_eq m c tt ti hc, Except.ok.injEq] at h
  have hc1 : dlookup m1.active_connections c = some conn := by
    rw [← h]; exact hc
  rw [subscribe_eq m1 c tt ti hc1, ← h]
  simp only [dlookup_dset_self, sadd_idem, dset_dset]

/-- C7: subscribing a registered connection to a topic twice leaves the
registry in exactly the state of a single subscribe; after subscribing
there is exactly one subscription entry in each index (the client occurs
in the topic's duplicate-free subscriber set, so it is returned exactly
once); subscribing an unregistered id fails with the not-connected
error. -/
theorem subscribe_idempotent (m : Manager) (c : ClientId) (tt ti : String)
    (hW : m.WF) :
    (∀ m1, m.subscribe c tt ti = Except.ok m1 →
      m1.subscribe c tt ti = Except.ok m1 ∧
      (∃ s, dlookup m1.subscriptions (tt, ti) = some s ∧ c ∈ s ∧ s.Nodup) ∧
      (∃ ts, dlookup m1.client_topics c = some ts ∧ (tt, ti) ∈ ts ∧ ts.Nodup)) ∧
    (dlookup m.active_connections c = none →
      m.subscribe c tt ti = Except.error ("Client " ++ c ++ " is not connected")) := by
  constructor
  · intro m1 h
    cases hc : dlookup m.active_connections c with
    | none => rw [subscribe_not_connected m c tt ti hc] at h; cases h
    | some conn =>
        have htwice := subscribe_twice_eq m c tt ti hc h
        rw [subscribe_eq m c tt ti hc, Except.ok.injEq] at h
        subst h
        have hnodupS : (match dlookup m.subscriptions (tt, ti) with
            | none => ([] : List ClientId) | some s => s).Nodup := by
          cases hsub : dlookup m.subscriptions (tt, ti) with
          | none => exact List.nodup_nil
          | some s => exact hW.2.2.2.1 _ (mem_of_dlookup hsub)
        have hnodupT : (match dlookup m.client_topics c with
            | none => ([] : List TopicKey) | some ts => ts).Nodup := by
          cases hct : dlookup m.client_topics c with
          | none => exact List.nodup_nil
          | some ts => exact hW.2.2.2.2 _ (mem_of_dlookup hct)
        refine ⟨htwice, ?_, ?_⟩
        · exact ⟨_, dlookup_dset_self _ _ _,
            (mem_sadd_iff _ c c).mpr (Or.inr rfl), nodup_sadd _ c hnodupS⟩
        · exact ⟨_, dlookup_dset_self _ _ _,
            (mem_sadd_iff _ (tt, ti) (tt, ti)).mpr (Or.inr rfl),
            nodup_sadd _ (tt, ti) hnodupT⟩
  · exact subscribe_not_connected m c tt ti

theorem subscribe_idempotent_witness :
    (Manager.subscribe
        ⟨[("a", ⟨1, 0⟩)], [(("p", "1"), ["a"])], [("a", [("p", "1")])]⟩
        "a" "p" "1")
      = Except.ok
          ⟨[("a", ⟨1, 0⟩)], [(("p", "1"), ["a"])], [("a", [("p", "1")])]⟩ ∧
    (∃ s, dlookup (Manager.subscriptions
        ⟨[("a", ⟨1, 0⟩)], [(("p", "1"), ["a"])], [("a", [("p", "1")])]⟩)
        ("p", "1") = some s ∧ "a" ∈ s ∧ s.Nodup) := by
  have h := (subscribe_idempotent ⟨[("a", ⟨1, 0⟩)], [], [("a", [])]⟩
    "a" "p" "1" (by decide)).1
    ⟨[("a", ⟨1, 0⟩)], [(("p", "1"), ["a"])], [("a", [("p", "1")])]⟩ rfl
  exact ⟨h.1, h.2.1⟩

/-- Core of the partial-failure broadcast argument, over an abstract
resolved channel list containing exactly one failing channel `wA`. -/
theorem publish_fold_partial (send : Nat → SendOutcome) (wss : List Nat)
    (m : Manager) (wA wB : Nat) (A : ClientId)
    (hone : wss.count wA = 1)
    (hallw : ∀ w ∈ wss, w = wA ∨ w = wB)
    (hwB : wB ∈ wss)
    (hsA : send wA = SendOutcome.disconnected)
    (hsB : send wB = SendOutcome.ok)
    (hcid : m.get_client_id wA = some A) :
    (wss.foldl (publishStep send) (m, [])).1 = m.disconnect A ∧
    (wB, SendOutcome.ok) ∈ (wss.foldl (publishStep send) (m, [])).2 ∧
    (wA, SendOutcome.disconnected) ∈ (wss.foldl (publishStep send) (m, [])).2 := by
  have hmemA : wA ∈ wss := by
    rw [← List.count_pos_iff, hone]
    exact Nat.one_pos
  refine ⟨?_, ?_, ?_⟩
  · obtain ⟨l1, l2, hsplit, hnA1, hnA2⟩ := count_one_split hone
    have hok1 : ∀ w ∈ l1, send w = SendOutcome.ok := by
      intro w hw
      have hmemW : w ∈ wss := by
        rw [hsplit]; exact List.mem_append_left _ hw
      rcases hallw w hmemW with rfl | rfl
      · exact absurd hw hnA1
      · exact hsB
    have hok2 : ∀ w ∈ l2, send w = SendOutcome.ok := by
      intro w hw
      have hmemW : w ∈ wss := by
        rw [hsplit]
        exact List.mem_append_right _ (List.mem_cons_of_mem _ hw)
      rcases hallw w hmemW with rfl | rfl
      · exact absurd hw hnA2
      · exact hsB
    rw [hsplit, List.foldl_append, List.foldl_cons]
    have hACC1 : (l1.foldl (publishStep send)
        ((m : Manager), ([] : List (Nat × SendOutcome)))).1 = m :=
      publish_fold_fst_ok send l1 _ hok1
    have hcid1 : (l1.foldl (publishStep send)
        ((m : Manager), ([] : List (Nat × SendOutcome)))).1.get_client_id wA = some A := by
      rw [hACC1]
      exact hcid
    have hstep := publishStep_fst_disconnected send
      (l1.foldl (publishStep send) (m, [])) wA hsA hcid1
    rw [publish_fold_fst_ok send l2 _ hok2, hstep, hACC1]
  · rw [publish_fold_log]
    exact List.mem_append_right _
      (List.mem_map.mpr ⟨wB, hwB, by rw [hsB]⟩)
  · rw [publish_fold_log]
    exact List.mem_append_right _
      (List.mem_map.mpr ⟨wA, hmemA, by rw [hsA]⟩)

/-- C3: with subscribers exactly `A` and `B` of a topic, a channel-closed
send failure for `A` does not stop delivery: `B` is still attempted and
succeeds, `A`'s connection is resolved to its client id and removed from
the registry, and `B` stays registered.  The publisher itself returns
normally (it is total: every send outcome is caught in `publishStep`). -/
theorem publish_partial_failure (m : Manager) (tt ti : String)
    (send : Nat → SendOutcome) (A B : ClientId) (connA connB : Conn)
    {subs : List ClientId} (hW : m.WF)
    (hsub : dlookup m.subscriptions (tt, ti) = some subs)
    (hall : ∀ c0 ∈ subs, c0 = A ∨ c0 = B)
    (hmemA : A ∈ subs) (hmemB : B ∈ subs) (hAB : A ≠ B)
    (hA : dlookup m.active_connections A = some connA)
    (hB : dlookup m.active_connections B = some connB)
    (hwAB : connA.ws ≠ connB.ws)
    (huniq : ∀ p ∈ m.active_connections, p.2.ws = connA.ws → p.1 = A)
    (hsA : send connA.ws = SendOutcome.disconnected)
    (hsB : send connB.ws = SendOutcome.ok) :
    (connB.ws, SendOutcome.ok) ∈ (publish_message m tt ti send).2 ∧
    (connA.ws, SendOutcome.disconnected) ∈ (publish_message m tt ti send).2 ∧
    dlookup ((publish_message m tt ti send).1).active_connections A = none ∧
    dlookup ((publish_message m tt ti send).1).active_connections B = some connB := by
  have hstale : subs.filter
      (fun c => decide (dlookup m.active_connections c = none)) = [] := by
    rw [List.filter_eq_nil_iff]
    intro c hc
    rcases hall c hc with rfl | rfl
    · simp [hA]
    · simp [hB]
  have hgs : m.get_subscribers tt ti
      = (subs.filterMap
          (fun c => (dlookup m.active_connections c).map (fun x : Conn => x.ws)), m) := by
    show (match dlookup m.subscriptions (tt, ti) with
      | none => (([] : List Nat), m)
      | some subs =>
          (subs.filterMap
            (fun c => (dlookup m.active_connections c).map (fun x : Conn => x.ws)),
           (subs.filter (fun c => decide (dlookup m.active_connections c = none))).foldl
             (fun acc c => acc._remove_subscription c (tt, ti)) m)) = _
    rw [hsub]
    show (subs.filterMap
        (fun c => (dlookup m.active_connections c).map (fun x : Conn => x.ws)),
      (subs.filter (fun c => decide (dlookup m.active_connections c = none))).foldl
        (fun acc c => acc._remove_subscription c (tt, ti)) m) = _
    rw [hstale, List.foldl_nil]
  have hpub : publish_message m tt ti send
      = (subs.filterMap
          (fun c => (dlookup m.active_connections c).map (fun x : Conn => x.ws))).foldl
          (publishStep send) (m, []) := by
    show ((m.get_subscribers tt ti).1).foldl (publishStep send)
        ((m.get_subscribers tt ti).2, []) = _
    simp only [hgs]
  obtain ⟨hcnt, hallw, hBw⟩ := wss_props m A B connA connB hA hB hAB hwAB subs hall
  have hndsubs : subs.Nodup := hW.2.2.2.1 _ (mem_of_dlookup hsub)
  have hone : (subs.filterMap
      (fun c => (dlookup m.active_connections c).map (fun x : Conn => x.ws))).count connA.ws
      = 1 := by
    rw [hcnt]
    exact List.count_eq_one_of_mem hndsubs hmemA
  have hcid : m.get_client_id connA.ws = some A :=
    get_client_id_unique m connA.ws A hA rfl huniq
  obtain ⟨hfst, hlogB, hlogA⟩ := publish_fold_partial send
    (subs.filterMap (fun c => (dlookup m.active_connections c).map (fun x : Conn => x.ws)))
    m connA.ws connB.ws A hone hallw (hBw hmemB) hsA hsB hcid
  refine ⟨?_, ?_, ?_, ?_⟩
  · rw [hpub]; exact hlogB
  · rw [hpub]; exact hlogA
  · rw [hpub, hfst, disconnect_active]
    exact dlookup_ddel_self _ _
  · rw [hpub, hfst, disconnect_active,
      dlookup_ddel_ne _ (fun hh => hAB hh.symm)]
    exact hB

theorem publish_partial_failure_witness :
    ((2 : Nat), SendOutcome.ok) ∈
      (publish_message
        ⟨[("a", ⟨1, 0⟩), ("b", ⟨2, 0⟩)], [(("p", "1"), ["a", "b"])],
          [("a", [("p", "1")]), ("b", [("p", "1")])]⟩
        "p" "1"
        (fun w => if w = 1 then SendOutcome.disconnected else SendOutcome.ok)).2 ∧
    dlookup ((publish_message
        ⟨[("a", ⟨1, 0⟩), ("b", ⟨2, 0⟩)], [(("p", "1"), ["a", "b"])],
          [("a", [("p", "1")]), ("b", [("p", "1")])]⟩
        "p" "1"
        (fun w => if w = 1 then SendOutcome.disconnected else SendOutcome.ok)).1).active_connections
      "a" = none := by
  have h := @publish_partial_failure
    ⟨[("a", ⟨1, 0⟩), ("b", ⟨2, 0⟩)], [(("p", "1"), ["a", "b"])],
      [("a", [("p", "1")]), ("b", [("p", "1")])]⟩
    "p" "1"
    (fun w => if w = 1 then SendOutcome.disconnected else SendOutcome.ok)
    "a" "b" ⟨1, 0⟩ ⟨2, 0⟩ ["a", "b"]
    (by decide) rfl (by decide) (by decide) (by decide) (by decide)
    rfl rfl (by decide) (by decide) rfl rfl
  exact ⟨h.1, h.2.2.1⟩

/-- C9: an inbound frame with an unknown `type` discriminator, or one that
fails to parse, makes the receive loop send an outbound error frame and
continue: the registry is untouched and the client stays registered. -/
theorem bad_frame_keeps_connection (m : Manager) (c : ClientId)
    (t detail : String)
    (hreg : (dlookup m.active_connections c).isSome = true) :
    handleFrame m c (InFrame.unknownF t) true
        = (m, [OutFrame.errorF ("Unknown message type: " ++ t)], true) ∧
    handleFrame m c (InFrame.malformedF detail) true
        = (m, [OutFrame.errorF ("Failed to process message: " ++ detail)], true) ∧
    (dlookup ((handleFrame m c (InFrame.unknownF t) true).1).active_connections c).isSome
        = true ∧
    (dlookup ((handleFrame m c (InFrame.malformedF detail) true).1).active_connections c).isSome
        = true :=
  ⟨rfl, rfl, hreg, hreg⟩

theorem bad_frame_keeps_connection_witness :
    handleFrame ⟨[("a", ⟨1, 0⟩)], [], [("a", [])]⟩ "a" (InFrame.unknownF "ping") true
        = (⟨[("a", ⟨1, 0⟩)], [], [("a", [])]⟩,
           [OutFrame.errorF "Unknown message type: ping"], true) ∧
    (dlookup ((handleFrame ⟨[("a", ⟨1, 0⟩)], [], [("a", [])]⟩ "a"
        (InFrame.unknownF "ping") true).1).active_connections "a").isSome = true := by
  have h := bad_frame_keeps_connection ⟨[("a", ⟨1, 0⟩)], [], [("a", [])]⟩
    "a" "ping" "bad json" (by decide)
  exact ⟨h.1, h.2.2.1⟩

theorem subscribe_active_eq (m : Manager) (c : ClientId) (tt ti : String)
    {m' : Manager} (h : m.subscribe c tt ti = Except.ok m') :
    m'.active_connections = m.active_connections := by
  cases hc : dlookup m.active_connections c with
  | none => rw [subscribe_not_connected m c tt ti hc] at h; cases h
  | some conn =>
      rw [subscribe_eq m c tt ti hc, Except.ok.injEq] at h
      rw [← h]

theorem unsubscribe_active_eq (m : Manager) (c : ClientId) (tt ti : String) :
    (m.unsubscribe c tt ti).active_connections = m.active_connections := by
  unfold Manager.unsubscribe
  cases hc : dlookup m.active_connections c with
  | none => rfl
  | some conn => exact rs_active m c (tt, ti)

theorem handleFrame_active (m : Manager) (c : ClientId) (f : InFrame) (b : Bool) :
    ((handleFrame m c f b).1).active_connections = m.active_connections := by
  cases f with
  | subscribeF tt ti =>
      show ((match m.subscribe c tt ti with
        | Except.ok m' =>
            if b = true then (m', [OutFrame.ackF "subscribe" true], true)
            else (m', [], false)
        | Except.error e =>
            if b = true
            then (m, [OutFrame.errorF ("Failed to process message: " ++ e)], true)
            else (m, [], false)).1).active_connections = m.active_connections
      cases hs : m.subscribe c tt ti with
      | ok m' =>
          cases b
          · exact subscribe_active_eq m c tt ti hs
          · exact subscribe_active_eq m c tt ti hs
      | error e => cases b <;> rfl
  | unsubscribeF tt ti =>
      show ((if b = true
          then (m.unsubscribe c tt ti, [OutFrame.ackF "unsubscribe" true], true)
          else (m.unsubscribe c tt ti, ([] : List OutFrame), false)).1).active_connections
        = m.active_connections
      cases b
      · exact unsubscribe_active_eq m c tt ti
      · exact unsubscribe_active_eq m c tt ti
  | unknownF t => cases b <;> rfl
  | malformedF d => cases b <;> rfl

/-- C4: the receive loop never refreshes `last_activity_at` — no frame
changes `active_connections` at all, since `update_activity` is never
called — so a client that connects at time 0 with a 2-second timeout and
1-second check interval and sends a frame in every interval is
nevertheless closed (code 1000, reason "Inactivity timeout") and removed
by the cleanup tick at time 3, contradicting the specified keep-alive
behaviour. -/
theorem inactivity_keepalive_bug :
    (∀ (m : Manager) (c : ClientId) (f : InFrame) (b : Bool),
      ((handleFrame m c f b).1).active_connections = m.active_connections) ∧
    ((cleanupTick
        ((handleFrame
          ((handleFrame
            ((handleFrame (Manager.init.connect 7 "client-1" 0)
              "client-1" (InFrame.subscribeF "project" "123") true).1)
            "client-1" (InFrame.subscribeF "project" "123") true).1)
          "client-1" (InFrame.unsubscribeF "project" "123") true).1)
        3 2).2 = [(7, 1000, "Inactivity timeout")] ∧
      dlookup ((cleanupTick
        ((handleFrame
          ((handleFrame
            ((handleFrame (Manager.init.connect 7 "client-1" 0)
              "client-1" (InFrame.subscribeF "project" "123") true).1)
            "client-1" (InFrame.subscribeF "project" "123") true).1)
          "client-1" (InFrame.unsubscribeF "project" "123") true).1)
        3 2).1).active_connections "client-1" = none) :=
  ⟨handleFrame_active, by decide⟩
